import Mathlib

/-!
# YaCo — `YaLibs/YaToolsIDALib/Strucs.cpp`

Shallow embedding of the tag store (`strucs::*`, `local_types::*`) and of the
drift filter (`Filter::is_valid`), followed by the properties established
about them.

Conventions of the embedding:

* `YaToolObjectId` and `ea_t` are unsigned machine words; no arithmetic is done
  on them in this file, so they are natural numbers.
* a `Tag` is the payload `data[0 .. 15]` of `struct Tag { char data[17]; }`;
  every read and write in `Strucs.cpp` uses `sizeof tag.data - 1 = 16` bytes.
* names, keys and attribute values are strings whose characters stand for bytes;
  a `const char*` name is the string up to its terminator.
* the netnode database and the random generator are explicit state (`Db`);
  every operation returns the state it leaves behind.
* the three hash primitives and `get_struc_name` are parameters (`Ida`), and so
  is the content `junk` of a default-constructed `Tag` buffer.
-/

namespace YaCo

/-! ## Identifiers, tags -/

/-- Object identifier, `YaToolObjectId` (an unsigned 64-bit word). -/
abbrev YaToolObjectId := Nat

/-- Effective address / structure id, `ea_t`. -/
abbrev ea_t := Nat

/-- Payload of `struct Tag`: the 16 characters `data[0 .. 15]`. -/
structure Tag where
  data : List Char
  size_eq : data.length = 16
deriving DecidableEq

/-- The bytes `{tag.data, sizeof tag.data - 1}` seen as a string
(`make_string_ref(const Tag&)`, `std::string{tag.data, sizeof tag.data - 1}`). -/
def make_string_ref (tag : Tag) : String := String.mk tag.data

/-- Effect of `memcpy(tag.data, value.value, std::min(sizeof tag.data - 1, value.size))`:
the first `min 16 size` bytes are replaced, the others keep their previous content. -/
def Tag.memcpy (tag : Tag) (value : String) : Tag where
  data := value.data.take 16 ++ tag.data.drop (min 16 value.data.length)
  size_eq := by
    have h := tag.size_eq
    simp only [List.length_append, List.length_take, List.length_drop, h]
    omega

/-- The tag whose 16 bytes are all NUL. -/
def Tag.zero : Tag where
  data := List.replicate 16 (Char.ofNat 0)
  size_eq := rfl

/-! ## Netnode names (Strucs.cpp 35-45) -/

/-- Source: `std::string("$yaco_struc_") + struc_name`. -/
def get_struc_netnode_name (struc_name : String) : String :=
  "$yaco_struc_" ++ struc_name

/-- Source: `std::string("$yaco_local_") + local_name`. -/
def get_local_netnode_name (local_name : String) : String :=
  "$yaco_local_" ++ local_name

/-! ## External collaborators -/

/-- Modelled from the spec: the hash primitives of `Hash.hpp` (three deterministic
black boxes, spec 4.2) and IDA's `get_struc_name` as wrapped by `ya::wrap`; none
of them is defined in `Strucs.cpp`, so they are parameters of the embedding. -/
structure Ida where
  hash_struc : String → YaToolObjectId
  hash_local_type : String → YaToolObjectId
  hash_member : YaToolObjectId → ea_t → YaToolObjectId
  get_struc_name : ea_t → String

/-- IDA's `BADADDR`, the all-ones address (64-bit `ea_t`). -/
def BADADDR : ea_t := 0xFFFFFFFFFFFFFFFF

/-- Modelled from the spec: the type/structure introspection of IDA used by
`local_types::identify` (spec 6): `tinfo_t::get_numbered_type` and
`tinfo_t::print` on a local-type ordinal, `get_enum` and `get_struc_id` by name
(`BADADDR` when there is none), and `get_struc` giving, for a structure that
exists, the value of `is_ghost()`. -/
structure TypeSystem where
  get_numbered_type : Nat → Bool
  print : Nat → Option String
  get_enum : String → ea_t
  get_struc_id : String → ea_t
  get_struc : ea_t → Option Bool

/-- Modelled from the spec: `hexchars_upper` of `BinHex.hpp`, the sixteen
upper-case hexadecimal digits. -/
def hexchars_upper : List Char := "0123456789ABCDEF".data

/-- Modelled from the spec: `binhex(dst, hexchars_upper, src, n)` of `BinHex.hpp`;
every source byte yields two digits, high nibble first ("8 random bytes,
hex-encoded to a 16-character printable string"). -/
def binhex (src : List Nat) : String :=
  String.mk (src.flatMap fun b =>
    [hexchars_upper.getD (b % 256 / 16) '0', hexchars_upper.getD (b % 16) '0'])

/-- Modelled from the spec: state of the random generator behind `rng::generate`
(`Random.hpp`), the stream of bytes it will still produce. -/
abbrev Rng := Nat → Nat

/-- Modelled from the spec: `rng::generate(&rng, n)` fills `n` bytes from the
stream and advances it. -/
def Rng.generate (g : Rng) (n : Nat) : List Nat × Rng :=
  ((List.range n).map fun i => g i % 256, fun i => g (i + n))

/-- Modelled from the spec: the keyed-blob persistence primitive (IDA netnodes,
spec 6): the named nodes with the value each one holds, together with the random
generator.  Every value written by `Strucs.cpp` is a 16-byte tag. -/
structure Db where
  nodes : String → Option Tag
  rng : Rng

/-- Modelled from the spec: `write(handle, bytes)`, `netnode::set` on the node
named `key` (also the create-or-open constructor `netnode(name, size, true)`
followed by `set`). -/
def Db.set (db : Db) (key : String) (tag : Tag) : Db :=
  { db with nodes := fun k => if k = key then some tag else db.nodes k }

/-- Modelled from the spec: `delete(handle)`, `netnode::kill` on the node named `key`. -/
def Db.kill (db : Db) (key : String) : Db :=
  { db with nodes := fun k => if k = key then none else db.nodes k }

/-- Modelled from the spec: `rename_key(handle, new_key)`, `netnode::rename` on the
node currently named `key`.  The spec leaves open what happens when `newkey`
already names another node; `replaces` selects between the two possible
behaviours: `false` is the contract documented for `netnode::rename` (the call
fails, "newname is already used", and nothing changes), `true` lets the renamed
node take the place of the other one. -/
def Db.rename (replaces : Bool) (db : Db) (key newkey : String) : Db :=
  match db.nodes key with
  | none => db
  | some tag =>
    if newkey = key then db
    else if (db.nodes newkey).isSome && !replaces then db
    else (db.kill key).set newkey tag

/-! ## Version records -/

/-- Modelled from the spec: the object kinds of `YaEnums.hpp` (`YaToolObjectType_e`);
`Filter::is_valid` distinguishes `OBJECT_TYPE_STRUCT`, `OBJECT_TYPE_STRUCT_MEMBER`
and `OBJECT_TYPE_LOCAL_TYPE` from all the others. -/
inductive YaToolObjectType where
  | OBJECT_TYPE_UNKNOWN
  | OBJECT_TYPE_BINARY
  | OBJECT_TYPE_DATA
  | OBJECT_TYPE_CODE
  | OBJECT_TYPE_FUNCTION
  | OBJECT_TYPE_STRUCT
  | OBJECT_TYPE_ENUM
  | OBJECT_TYPE_ENUM_MEMBER
  | OBJECT_TYPE_BASIC_BLOCK
  | OBJECT_TYPE_SEGMENT
  | OBJECT_TYPE_SEGMENT_CHUNK
  | OBJECT_TYPE_STRUCT_MEMBER
  | OBJECT_TYPE_STACKFRAME
  | OBJECT_TYPE_STACKFRAME_MEMBER
  | OBJECT_TYPE_REFERENCE_INFO
  | OBJECT_TYPE_LOCAL_TYPE
deriving DecidableEq, Repr

/-- Modelled from the spec: the read-only view `HVersion` (`HVersion.hpp`):
identifier, parent identifier, kind, address, display name, and the attributes
in the order in which `walk_attributes` presents them. -/
structure HVersion where
  id : YaToolObjectId
  parent_id : YaToolObjectId
  type : YaToolObjectType
  address : ea_t
  username : String
  attributes : List (String × String)

/-! ## Tag rows (Strucs.cpp 47-123) -/

/-- Source: `using Reply = struct { Tag tag; netnode node; YaToolObjectId id; }`;
the node handle is the name under which the node is stored. -/
structure Reply where
  tag : Tag
  node : String
  id : YaToolObjectId

/-- The tag buffer after `binhex(tag.data, hexchars_upper, &rng, sizeof rng)` on the
eight bytes drawn by `rng::generate(&rng, sizeof rng)`. -/
def Tag.random (g : Rng) : Tag where
  data := (binhex (g.generate 8).1).data
  size_eq := by
    have hb : ∀ src : List Nat, (binhex src).data.length = 2 * src.length := by
      intro src
      unfold binhex
      induction src with
      | nil => rfl
      | cons b bs ih =>
        simp only [List.flatMap_cons, List.length_append, List.length_cons,
          List.length_nil] at ih ⊢
        omega
    rw [hb]
    simp [Rng.generate]

/-- Source: template `hash_to_node<get_name, hash>(struc_name)`.
`node.create` reports whether the node had to be created; if so a random tag is
generated and stored in it.  The tag is then read back from the node and hashed. -/
def hash_to_node (get_name : String → String) (hash : String → YaToolObjectId)
    (db : Db) (struc_name : String) : Reply × Db :=
  let name := get_name struc_name
  match db.nodes name with
  | none =>
    let tag := Tag.random db.rng
    let db1 := { db with rng := (db.rng.generate 8).2 }.set name tag
    ({ tag := tag, node := name, id := hash (make_string_ref tag) }, db1)
  | some tag =>
    ({ tag := tag, node := name, id := hash (make_string_ref tag) }, db)

/-- Source: `hash_struc(const char*)`, the instance for structures. -/
def hash_struc (ida : Ida) (db : Db) (struc_name : String) : Reply × Db :=
  hash_to_node get_struc_netnode_name ida.hash_struc db struc_name

/-- Source: `hash_local(const char*)`, the instance for local types. -/
def hash_local (ida : Ida) (db : Db) (local_name : String) : Reply × Db :=
  hash_to_node get_local_netnode_name ida.hash_local_type db local_name

/-- Source: `hash_with(ea_t id)`: the structure name is fetched from IDA. -/
def hash_with (ida : Ida) (db : Db) (id : ea_t) : Reply × Db :=
  hash_struc ida db (ida.get_struc_name id)

/-- Source: `create_node_from(name, tag)`: open or create the node, set its value. -/
def create_node_from (db : Db) (name : String) (tag : Tag) : Db :=
  db.set name tag

/-- Source: the callback handed to `walk_attributes` in `get_tag_from_version`,
acting on the captured `(tag, ok)`; it returns `WALK_CONTINUE` in both branches. -/
def tag_walker (acc : Tag × Bool) (kv : String × String) : Tag × Bool :=
  if kv.1 ≠ "tag" then acc else (acc.1.memcpy kv.2, true)

/-- Source: `get_tag_from_version(version, ok)`.  `junk` is the content of the
default-constructed `Tag tag;` the walk starts from; every attribute keyed
`"tag"` is copied over it, and the walk always continues. -/
def get_tag_from_version (junk : Tag) (version : HVersion) : Tag × Bool :=
  version.attributes.foldl tag_walker (junk, false)

/-! ## `namespace strucs` (Strucs.cpp 126-181) -/

namespace strucs

/-- Source: `strucs::hash(ea_t id)`. -/
def hash (ida : Ida) (db : Db) (id : ea_t) : YaToolObjectId × Db :=
  let r := hash_with ida db id
  (r.1.id, r.2)

/-- Source: `strucs::get_tag(ea_t id)`. -/
def get_tag (ida : Ida) (db : Db) (id : ea_t) : Tag × Db :=
  let r := hash_with ida db id
  (r.1.tag, r.2)

/-- Source: `strucs::rename(oldname, newname)`; `none` is the null pointer. -/
def rename (replaces : Bool) (ida : Ida) (db : Db) (oldname : Option String)
    (newname : String) : Db :=
  match oldname with
  | none => db
  | some oldname =>
    let r := hash_struc ida db oldname
    let newnodename := get_struc_netnode_name newname
    r.2.rename replaces r.1.node newnodename

/-- Source: `strucs::remove(ea_t id)`. -/
def remove (ida : Ida) (db : Db) (id : ea_t) : Tag × Db :=
  let r := hash_with ida db id
  (r.1.tag, r.2.kill r.1.node)

/-- Source: `strucs::set_tag_with(name, tag)`. -/
def set_tag_with (db : Db) (name : String) (tag : Tag) : Db :=
  create_node_from db (get_struc_netnode_name name) tag

/-- Source: `strucs::set_tag(ea_t id, tag)`. -/
def set_tag (ida : Ida) (db : Db) (id : ea_t) (tag : Tag) : Db :=
  set_tag_with db (ida.get_struc_name id) tag

/-- Source: `strucs::visit(v, name)`; the result is the attribute handed to
`v.visit_attribute`. -/
def visit (ida : Ida) (db : Db) (name : String) : (String × String) × Db :=
  let r := hash_struc ida db name
  (("tag", make_string_ref r.1.tag), r.2)

/-- Source: `strucs::accept(version)`. -/
def accept (junk : Tag) (db : Db) (version : HVersion) : Tag × Db :=
  let r := get_tag_from_version junk version
  if r.2 then (r.1, set_tag_with db version.username r.1) else (r.1, db)

end strucs

/-! ## `namespace local_types` (Strucs.cpp 231-290) -/

namespace local_types

/-- Source: `local_types::hash(name, tag)`; the tag copied to `*tag` when the
pointer is not null is the first component. -/
def hash (ida : Ida) (db : Db) (name : String) : (Tag × YaToolObjectId) × Db :=
  let r := hash_local ida db name
  ((r.1.tag, r.1.id), r.2)

/-- Source: `local_types::identify(type, ord)`; the second component is `type->name`,
cleared at entry and filled by `print`. -/
def identify (ts : TypeSystem) (ord : Nat) : Bool × String :=
  if !ts.get_numbered_type ord then (false, "")
  else
    match ts.print ord with
    | none => (false, "")
    | some name =>
      let eid := ts.get_enum name
      if eid ≠ BADADDR then (false, name)
      else
        let sid := ts.get_struc_id name
        if sid = BADADDR then (true, name)
        else
          match ts.get_struc sid with
          | none => (true, name)
          | some is_ghost => (is_ghost, name)

/-- Source: `local_types::hash(uint32_t ord)`. -/
def hash_ord (ts : TypeSystem) (ida : Ida) (db : Db) (ord : Nat) : YaToolObjectId × Db :=
  let r := identify ts ord
  if !r.1 then (0, db)
  else
    let h := hash ida db r.2
    (h.1.2, h.2)

/-- Source: `local_types::get_tag(name)`. -/
def get_tag (ida : Ida) (db : Db) (name : String) : Tag × Db :=
  let r := hash_local ida db name
  (r.1.tag, r.2)

/-- Source: `local_types::set_tag(name, tag)`. -/
def set_tag (db : Db) (name : String) (tag : Tag) : Db :=
  create_node_from db (get_local_netnode_name name) tag

/-- Source: `local_types::rename(oldname, tag, newname)`; `none` is the null pointer. -/
def rename (replaces : Bool) (ida : Ida) (db : Db) (oldname : Option String) (tag : Tag)
    (newname : String) : Db :=
  match oldname with
  | none => db
  | some oldname =>
    let r := hash_local ida db oldname
    let db1 := set_tag r.2 oldname tag
    let newnodename := get_local_netnode_name newname
    db1.rename replaces r.1.node newnodename

/-- Source: `local_types::remove(name)`. -/
def remove (ida : Ida) (db : Db) (name : String) : Tag × Db :=
  let r := hash_local ida db name
  (r.1.tag, r.2.kill r.1.node)

/-- Source: `local_types::visit(v, name)`. -/
def visit (ida : Ida) (db : Db) (name : String) : (String × String) × Db :=
  let r := hash_local ida db name
  (("tag", make_string_ref r.1.tag), r.2)

/-- Source: `local_types::accept(version)`. -/
def accept (junk : Tag) (db : Db) (version : HVersion) : Tag × Db :=
  let r := get_tag_from_version junk version
  if r.2 then (r.1, set_tag db version.username r.1) else (r.1, db)

end local_types

/-! ## Drift filter (Strucs.cpp 293-388) -/

/-- Source: `using Tags = std::unordered_map<std::string, std::string>`. -/
abbrev Tags := String → Option String

/-- Source: `using Members = std::unordered_map<YaToolObjectId, YaToolObjectId>`. -/
abbrev Members := YaToolObjectId → Option YaToolObjectId

/-- Source: `struct Filter`. -/
structure Filter where
  strucs_ : Tags
  locals_ : Tags
  members_ : Members

/-- Source: `strucs::make_filter()`, a filter with three empty tables. -/
def make_filter : Filter where
  strucs_ := fun _ => none
  locals_ := fun _ => none
  members_ := fun _ => none

/-- Source: template `check_version<hasher>(tags, version)`. -/
def check_version (hasher : String → YaToolObjectId) (junk : Tag) (tags : Tags)
    (version : HVersion) : YaToolObjectId × Tags :=
  let old := version.id
  let got := get_tag_from_version junk version
  if !got.2 then (old, tags)
  else
    let name := version.username
    let tag := make_string_ref got.1
    match tags name with
    | none => (old, fun k => if k = name then some tag else tags k)
    | some memo =>
      let cur := hasher memo
      if old = cur then (old, tags) else (cur, tags)

/-- Source: `check_struc_version(tags, version)`. -/
def check_struc_version (ida : Ida) (junk : Tag) (tags : Tags) (version : HVersion) :
    YaToolObjectId × Tags :=
  check_version ida.hash_struc junk tags version

/-- Source: `check_struc(f, version)`; `emplace` leaves an existing entry alone. -/
def check_struc (ida : Ida) (junk : Tag) (f : Filter) (version : HVersion) :
    YaToolObjectId × Filter :=
  let old := version.id
  let r := check_struc_version ida junk f.strucs_ version
  let id := r.1
  let f1 := { f with strucs_ := r.2 }
  if old ≠ id then
    (id, { f1 with members_ := fun k =>
      if k = old then (match f1.members_ old with | none => some id | some v => some v)
      else f1.members_ k })
  else (id, f1)

/-- Source: `check_member(f, version)`. -/
def check_member (ida : Ida) (f : Filter) (version : HVersion) : YaToolObjectId × Filter :=
  let old := version.id
  let parent := version.parent_id
  match f.members_ parent with
  | none => (old, f)
  | some v => (ida.hash_member v version.address, f)

/-- Source: `check_local_type(f, version)`. -/
def check_local_type (ida : Ida) (junk : Tag) (f : Filter) (version : HVersion) :
    YaToolObjectId × Filter :=
  let r := check_version ida.hash_local_type junk f.locals_ version
  (r.1, { f with locals_ := r.2 })

/-- Source: `Filter::is_valid(version)`. -/
def Filter.is_valid (ida : Ida) (junk : Tag) (f : Filter) (version : HVersion) :
    YaToolObjectId × Filter :=
  match version.type with
  | .OBJECT_TYPE_STRUCT => check_struc ida junk f version
  | .OBJECT_TYPE_STRUCT_MEMBER => check_member ida f version
  | .OBJECT_TYPE_LOCAL_TYPE => check_local_type ida junk f version
  | _ => (version.id, f)

/-- One pass over a batch: the caller hands the records to `Filter::is_valid` one
after the other on the same filter; each call comes with the content of its own
uninitialised `Tag` buffer.  The result is the filter state after the last call. -/
def Filter.pass (ida : Ida) (f : Filter) (records : List (Tag × HVersion)) : Filter :=
  records.foldl (fun g jr => (g.is_valid ida jr.1 jr.2).2) f

/-- Every entry of the remap table maps an id to a different id, the hash of some
value of the struct memo. -/
def RemapSound (ida : Ida) (f : Filter) : Prop :=
  ∀ k v, f.members_ k = some v →
    k ≠ v ∧ ∃ name t, f.strucs_ name = some t ∧ v = ida.hash_struc t

/-! ## Sample data used to instantiate the statements -/

/-- A concrete instance of the external primitives. -/
def sampleIda : Ida where
  hash_struc := fun s => if s = "A1B2C3D4E5F60708" then 9 else 4
  hash_local_type := fun s => if s = "A1B2C3D4E5F60708" then 11 else 6
  hash_member := fun p a => 1000 * p + a
  get_struc_name := fun id => if id = 1 then "Packet" else "Header"

/-- A concrete tag. -/
def sampleTag : Tag where
  data := "A1B2C3D4E5F60708".data
  size_eq := rfl

/-- Another concrete tag. -/
def otherTag : Tag where
  data := "0011223344556677".data
  size_eq := rfl

/-- A struct record named `Packet`, id 3, carrying `sampleTag`. -/
def recFirst : HVersion where
  id := 3
  parent_id := 0
  type := .OBJECT_TYPE_STRUCT
  address := 0
  username := "Packet"
  attributes := [("tag", "A1B2C3D4E5F60708")]

/-- A second struct record named `Packet`, id 5, carrying another tag. -/
def recSecond : HVersion where
  id := 5
  parent_id := 0
  type := .OBJECT_TYPE_STRUCT
  address := 0
  username := "Packet"
  attributes := [("size", "8"), ("tag", "0011223344556677")]

/-- A member record of the struct with id 5, at address 0x10. -/
def recMember : HVersion where
  id := 77
  parent_id := 5
  type := .OBJECT_TYPE_STRUCT_MEMBER
  address := 0x10
  username := "field_10"
  attributes := []

/-- A member record of an unrelated struct with id 7. -/
def recOther : HVersion where
  id := 78
  parent_id := 7
  type := .OBJECT_TYPE_STRUCT_MEMBER
  address := 0x20
  username := "field_20"
  attributes := [("tag", "A1B2C3D4E5F60708")]

/-- A generator state whose next eight bytes are A1 B2 C3 D4 E5 F6 07 18. -/
def sampleRng : Rng := fun i => 0xA1 + 0x11 * i

/-- A store in which the structs `Packet` and `PacketV2` both hold a tag. -/
def sampleDb : Db where
  nodes := fun k =>
    if k = "$yaco_struc_Packet" then some sampleTag
    else if k = "$yaco_struc_PacketV2" then some otherTag
    else none
  rng := sampleRng

/-- A store without any row. -/
def emptyDb : Db where
  nodes := fun _ => none
  rng := sampleRng

/-- A record named `Copy` carrying the tag exported for `Packet`. -/
def recImport : HVersion where
  id := 40
  parent_id := 0
  type := .OBJECT_TYPE_STRUCT
  address := 0
  username := "Copy"
  attributes := [("size", "8"), ("tag", "A1B2C3D4E5F60708")]

/-- A store in which the local type `Packet` holds `sampleTag`. -/
def sampleLocalDb : Db where
  nodes := fun k => if k = "$yaco_local_Packet" then some sampleTag else none
  rng := sampleRng

/-- A struct record named `Header`, id 2, carrying `otherTag`. -/
def recHeader : HVersion where
  id := 2
  parent_id := 0
  type := .OBJECT_TYPE_STRUCT
  address := 0
  username := "Header"
  attributes := [("tag", "0011223344556677")]

/-- A stale struct record named `Header` with id 5. -/
def recHeaderStale : HVersion where
  id := 5
  parent_id := 0
  type := .OBJECT_TYPE_STRUCT
  address := 0
  username := "Header"
  attributes := [("tag", "0011223344556677")]

/-- A local-type record named `Packet`, id 3, carrying `sampleTag`. -/
def recLocalFirst : HVersion where
  id := 3
  parent_id := 0
  type := .OBJECT_TYPE_LOCAL_TYPE
  address := 0
  username := "Packet"
  attributes := [("tag", "A1B2C3D4E5F60708")]

/-- A second local-type record named `Packet`, id 5. -/
def recLocalSecond : HVersion where
  id := 5
  parent_id := 0
  type := .OBJECT_TYPE_LOCAL_TYPE
  address := 0
  username := "Packet"
  attributes := [("tag", "0011223344556677")]

/-- A struct record without any `"tag"` attribute. -/
def recUntagged : HVersion where
  id := 21
  parent_id := 0
  type := .OBJECT_TYPE_STRUCT
  address := 0
  username := "Packet"
  attributes := [("size", "8")]

/-- A function record that happens to carry a tag and the parent id 5. -/
def recFunction : HVersion where
  id := 31
  parent_id := 5
  type := .OBJECT_TYPE_FUNCTION
  address := 0x401000
  username := "Packet"
  attributes := [("tag", "0011223344556677")]

/-- A filter state in which the struct `Packet` is memoised and a drift 5 -> 4 is
already recorded. -/
def sampleFilter : Filter where
  strucs_ := fun k => if k = "Packet" then some "A1B2C3D4E5F60708" else none
  locals_ := fun k => if k = "Packet" then some "A1B2C3D4E5F60708" else none
  members_ := fun k => if k = 5 then some 4 else none

/-- A type system with four local types: ordinal 1 prints `Plain` (neither enum
nor struct), 2 prints `Color` (an enum), 3 prints `Packet` (a materialised
struct), 4 prints `Fwd` (a ghost struct); ordinal 5 resolves but does not print,
the other ordinals do not resolve. -/
def sampleTypes : TypeSystem where
  get_numbered_type := fun ord => decide (1 ≤ ord ∧ ord ≤ 5)
  print := fun ord =>
    if ord = 1 then some "Plain" else if ord = 2 then some "Color"
    else if ord = 3 then some "Packet" else if ord = 4 then some "Fwd" else none
  get_enum := fun n => if n = "Color" then 0x100 else BADADDR
  get_struc_id := fun n => if n = "Packet" then 0x200 else if n = "Fwd" then 0x201 else BADADDR
  get_struc := fun sid =>
    if sid = 0x200 then some false else if sid = 0x201 then some true else none

/-- A tag buffer whose 16 bytes are all 0xFE, a possible content of an
uninitialised `Tag`. -/
def junkFE : Tag where
  data := List.replicate 16 (Char.ofNat 0xFE)
  size_eq := rfl

/-! ## Auxiliary facts -/

section Aux

theorem walk_found (attrs : List (String × String)) (t : Tag) (b : Bool) :
    (attrs.foldl tag_walker (t, b)).2 = (b || attrs.any fun kv => decide (kv.1 = "tag")) := by
  induction attrs generalizing t b with
  | nil => simp
  | cons kv rest ih =>
    rw [List.foldl_cons]
    by_cases hk : kv.1 = "tag"
    · simp [tag_walker, hk, ih]
    · simp [tag_walker, hk, ih]

/-- A record carries a tag exactly when one of its attributes is keyed `"tag"`. -/
theorem found_iff (junk : Tag) (v : HVersion) :
    (get_tag_from_version junk v).2 = true ↔ ∃ x, ("tag", x) ∈ v.attributes := by
  unfold get_tag_from_version
  rw [walk_found]
  simp only [Bool.false_or, List.any_eq_true, decide_eq_true_eq]
  constructor
  · rintro ⟨⟨k, x⟩, hmem, hk⟩
    exact ⟨x, by simpa [← hk] using hmem⟩
  · rintro ⟨x, hx⟩
    exact ⟨("tag", x), hx, rfl⟩

/-- Copying a 16-character value fills the whole payload. -/
theorem memcpy_full (t : Tag) (T : String) (hT : T.length = 16) : (t.memcpy T).data = T.data := by
  have h : T.data.length = 16 := hT
  simp [Tag.memcpy, h, t.size_eq, List.take_of_length_le, List.drop_of_length_le]

theorem walk_tag (T : String) (hT : T.length = 16) (attrs : List (String × String))
    (hall : ∀ x, ("tag", x) ∈ attrs → x = T) (t : Tag) (b : Bool) :
    (attrs.foldl tag_walker (t, b)).1.data
      = if (attrs.any fun kv => decide (kv.1 = "tag")) then T.data else t.data := by
  induction attrs generalizing t b with
  | nil => simp
  | cons kv rest ih =>
    rw [List.foldl_cons]
    have hrest : ∀ x, ("tag", x) ∈ rest → x = T := fun x hx =>
      hall x (List.mem_cons_of_mem _ hx)
    by_cases hk : kv.1 = "tag"
    · have hv : kv.2 = T := hall kv.2 (by rw [← hk]; exact List.mem_cons_self _ _)
      have hstep : tag_walker (t, b) kv = (t.memcpy T, true) := by
        simp [tag_walker, hk, hv]
      rw [hstep, ih hrest, memcpy_full _ _ hT]
      simp [hk]
    · have hstep : tag_walker (t, b) kv = (t, b) := by
        simp [tag_walker, hk]
      rw [hstep, ih hrest]
      simp only [List.any_cons, decide_eq_false hk, Bool.false_or]

/-- When every `"tag"` attribute of a record carries the 16-character value `T`,
the tag read from the record is `T`. -/
theorem tag_of_version (junk : Tag) (v : HVersion) (T : String) (hT : T.length = 16)
    (hone : ∃ x, ("tag", x) ∈ v.attributes) (hall : ∀ x, ("tag", x) ∈ v.attributes → x = T) :
    make_string_ref (get_tag_from_version junk v).1 = T := by
  have hf := (found_iff junk v).2 hone
  unfold get_tag_from_version at hf ⊢
  rw [walk_found] at hf
  have := walk_tag T hT v.attributes hall junk false
  simp only [Bool.false_or] at hf
  rw [hf] at this
  simp only [↓reduceIte] at this
  unfold make_string_ref
  rw [this]

/-- Result of `check_version` on a record without tag. -/
theorem check_version_untagged (hasher : String → YaToolObjectId) (junk : Tag) (tags : Tags)
    (v : HVersion) (h : (get_tag_from_version junk v).2 = false) :
    check_version hasher junk tags v = (v.id, tags) := by
  simp [check_version, h]

/-- Result of `check_version` at the first tagged sighting of a name. -/
theorem check_version_first (hasher : String → YaToolObjectId) (junk : Tag) (tags : Tags)
    (v : HVersion) (h : (get_tag_from_version junk v).2 = true) (hn : tags v.username = none) :
    check_version hasher junk tags v
      = (v.id, fun k => if k = v.username
          then some (make_string_ref (get_tag_from_version junk v).1) else tags k) := by
  simp [check_version, h, hn]

/-- Result of `check_version` at a later tagged sighting of a name. -/
theorem check_version_seen (hasher : String → YaToolObjectId) (junk : Tag) (tags : Tags)
    (v : HVersion) (memo : String) (h : (get_tag_from_version junk v).2 = true)
    (hn : tags v.username = some memo) :
    check_version hasher junk tags v = (hasher memo, tags) := by
  simp only [check_version, h, hn, Bool.not_true, Bool.false_eq_true, ↓reduceIte]
  split
  · next heq => rw [heq]
  · rfl

/-- The identifier returned by `check_struc` is the one computed by `check_version`. -/
theorem check_struc_fst (ida : Ida) (junk : Tag) (f : Filter) (v : HVersion) :
    (check_struc ida junk f v).1 = (check_version ida.hash_struc junk f.strucs_ v).1 := by
  unfold check_struc check_struc_version
  dsimp only
  split <;> rfl

/-- The struct memo after `check_struc` is the one left by `check_version`. -/
theorem check_struc_strucs (ida : Ida) (junk : Tag) (f : Filter) (v : HVersion) :
    (check_struc ida junk f v).2.strucs_ = (check_version ida.hash_struc junk f.strucs_ v).2 := by
  unfold check_struc check_struc_version
  dsimp only
  split <;> rfl

/-- The remap table after `check_struc`: `emplace(old, id)` when the id changed. -/
theorem check_struc_members (ida : Ida) (junk : Tag) (f : Filter) (v : HVersion) :
    (check_struc ida junk f v).2.members_
      = if v.id ≠ (check_version ida.hash_struc junk f.strucs_ v).1 then
          (fun k => if k = v.id then
              (match f.members_ v.id with
               | none => some (check_version ida.hash_struc junk f.strucs_ v).1
               | some w => some w)
            else f.members_ k)
        else f.members_ := by
  unfold check_struc check_struc_version
  dsimp only
  split <;> rfl

theorem is_valid_struct (ida : Ida) (junk : Tag) (f : Filter) (v : HVersion)
    (h : v.type = .OBJECT_TYPE_STRUCT) : f.is_valid ida junk v = check_struc ida junk f v := by
  simp [Filter.is_valid, h]

theorem is_valid_member (ida : Ida) (junk : Tag) (f : Filter) (v : HVersion)
    (h : v.type = .OBJECT_TYPE_STRUCT_MEMBER) : f.is_valid ida junk v = check_member ida f v := by
  simp [Filter.is_valid, h]

theorem is_valid_local_type (ida : Ida) (junk : Tag) (f : Filter) (v : HVersion)
    (h : v.type = .OBJECT_TYPE_LOCAL_TYPE) :
    f.is_valid ida junk v = check_local_type ida junk f v := by
  simp [Filter.is_valid, h]

/-! ### Facts about `hash_to_node` and the netnode primitives -/

theorem hash_to_node_node (g : String → String) (h : String → YaToolObjectId) (db : Db)
    (n : String) : (hash_to_node g h db n).1.node = g n := by
  unfold hash_to_node
  dsimp only
  split <;> rfl

theorem hash_to_node_id (g : String → String) (h : String → YaToolObjectId) (db : Db)
    (n : String) :
    (hash_to_node g h db n).1.id = h (make_string_ref (hash_to_node g h db n).1.tag) := by
  unfold hash_to_node
  dsimp only
  split <;> rfl

/-- An existing row is returned as it is; nothing is written or drawn. -/
theorem hash_to_node_existing (g : String → String) (h : String → YaToolObjectId) (db : Db)
    (n : String) (t : Tag) (hrow : db.nodes (g n) = some t) :
    hash_to_node g h db n = ({ tag := t, node := g n, id := h (make_string_ref t) }, db) := by
  unfold hash_to_node
  dsimp only
  rw [hrow]

/-- A missing row is created with a tag drawn from the generator. -/
theorem hash_to_node_created (g : String → String) (h : String → YaToolObjectId) (db : Db)
    (n : String) (hrow : db.nodes (g n) = none) :
    hash_to_node g h db n
      = ({ tag := Tag.random db.rng, node := g n,
           id := h (make_string_ref (Tag.random db.rng)) },
         { db with rng := (db.rng.generate 8).2 }.set (g n) (Tag.random db.rng)) := by
  unfold hash_to_node
  dsimp only
  rw [hrow]

/-- After a lookup the row holds the returned tag. -/
theorem hash_to_node_row (g : String → String) (h : String → YaToolObjectId) (db : Db)
    (n : String) :
    (hash_to_node g h db n).2.nodes (g n) = some (hash_to_node g h db n).1.tag := by
  cases hrow : db.nodes (g n) with
  | none => rw [hash_to_node_created g h db n hrow]; simp [Db.set]
  | some t => rw [hash_to_node_existing g h db n t hrow]; exact hrow

/-- A lookup leaves every other row as it was. -/
theorem hash_to_node_frame (g : String → String) (h : String → YaToolObjectId) (db : Db)
    (n k : String) (hk : k ≠ g n) : (hash_to_node g h db n).2.nodes k = db.nodes k := by
  cases hrow : db.nodes (g n) with
  | none => rw [hash_to_node_created g h db n hrow]; simp [Db.set, hk]
  | some t => rw [hash_to_node_existing g h db n t hrow]

/-- A second lookup returns the same reply and leaves the state as the first left it. -/
theorem hash_to_node_again (g : String → String) (h : String → YaToolObjectId) (db : Db)
    (n : String) : hash_to_node g h (hash_to_node g h db n).2 n = hash_to_node g h db n := by
  rw [hash_to_node_existing g h _ n _ (hash_to_node_row g h db n)]
  apply Prod.ext
  · have h1 := hash_to_node_node g h db n
    have h2 := hash_to_node_id g h db n
    cases hr : (hash_to_node g h db n).1 with
    | mk t nd i =>
      rw [hr] at h1 h2
      simp only at h1 h2
      simp only [h1, h2]
  · rfl

/-- A lookup never changes the generator when the row exists. -/
theorem hash_to_node_rng_existing (g : String → String) (h : String → YaToolObjectId)
    (db : Db) (n : String) (t : Tag) (hrow : db.nodes (g n) = some t) :
    (hash_to_node g h db n).2.rng = db.rng := by
  rw [hash_to_node_existing g h db n t hrow]

theorem set_nodes_same (db : Db) (key : String) (t : Tag) : (db.set key t).nodes key = some t := by
  simp [Db.set]

theorem set_nodes_other (db : Db) (key k : String) (t : Tag) (hk : k ≠ key) :
    (db.set key t).nodes k = db.nodes k := by
  simp [Db.set, hk]

theorem set_rng (db : Db) (key : String) (t : Tag) : (db.set key t).rng = db.rng := rfl

theorem kill_nodes_same (db : Db) (key : String) : (db.kill key).nodes key = none := by
  simp [Db.kill]

theorem kill_nodes_other (db : Db) (key k : String) (hk : k ≠ key) :
    (db.kill key).nodes k = db.nodes k := by
  simp [Db.kill, hk]

theorem kill_rng (db : Db) (key : String) : (db.kill key).rng = db.rng := rfl

/-- Renaming a node onto its own name changes nothing. -/
theorem rename_self (replaces : Bool) (db : Db) (key : String) :
    db.rename replaces key key = db := by
  unfold Db.rename
  split <;> simp

/-- Renaming an existing node onto a free name (or with a replacing primitive)
moves its tag to the new name. -/
theorem rename_moves (replaces : Bool) (db : Db) (key newkey : String) (t : Tag)
    (hrow : db.nodes key = some t) (hne : newkey ≠ key)
    (hfree : db.nodes newkey = none ∨ replaces = true) :
    db.rename replaces key newkey = (db.kill key).set newkey t := by
  unfold Db.rename
  rw [hrow]
  dsimp only
  rw [if_neg hne]
  rcases hfree with h | h
  · simp [h]
  · simp [h]

/-- With the documented `netnode::rename`, renaming onto a name in use changes nothing. -/
theorem rename_refused (db : Db) (key newkey : String) (t : Tag)
    (hused : db.nodes newkey = some t) : db.rename false key newkey = db := by
  unfold Db.rename
  split
  · rfl
  · simp [hused]

/-- Renaming never touches a node named neither `key` nor `newkey`. -/
theorem rename_frame (replaces : Bool) (db : Db) (key newkey k : String)
    (h1 : k ≠ key) (h2 : k ≠ newkey) : (db.rename replaces key newkey).nodes k = db.nodes k := by
  unfold Db.rename
  split
  · rfl
  · split
    · rfl
    · split
      · rfl
      · simp [Db.set, Db.kill, h1, h2]

theorem rename_rng (replaces : Bool) (db : Db) (key newkey : String) :
    (db.rename replaces key newkey).rng = db.rng := by
  unfold Db.rename
  split
  · rfl
  · split
    · rfl
    · split <;> rfl

/-- Every character produced by `binhex` is a digit of `hexchars_upper`, never NUL. -/
theorem hexchar_ne_nul (n : Nat) : hexchars_upper.getD n '0' ≠ Char.ofNat 0 := by
  by_cases h : n < 16
  · interval_cases n <;> decide
  · have hlen : hexchars_upper.length ≤ n := by
      have : hexchars_upper.length = 16 := rfl
      omega
    rw [List.getD_eq_default _ _ hlen]
    decide

/-- A freshly generated tag is never the all-NUL tag. -/
theorem random_ne_zero (g : Rng) : Tag.random g ≠ Tag.zero := by
  intro h
  have h1 : (Tag.random g).data.head? = Tag.zero.data.head? := by rw [h]
  have h2 : (Tag.random g).data.head?
      = some (hexchars_upper.getD (g 0 % 256 % 256 / 16) '0') := rfl
  have h3 : Tag.zero.data.head? = some (Char.ofNat 0) := rfl
  rw [h2, h3] at h1
  exact hexchar_ne_nul _ (Option.some.inj h1)

theorem struc_name_injective (a b : String)
    (h : get_struc_netnode_name a = get_struc_netnode_name b) : a = b := by
  unfold get_struc_netnode_name at h
  have h2 := congrArg String.data h
  simp only [String.data_append, List.append_cancel_left_eq] at h2
  exact String.ext h2

theorem local_name_injective (a b : String)
    (h : get_local_netnode_name a = get_local_netnode_name b) : a = b := by
  unfold get_local_netnode_name at h
  have h2 := congrArg String.data h
  simp only [String.data_append, List.append_cancel_left_eq] at h2
  exact String.ext h2

theorem struc_name_ne_local_name (a b : String) :
    get_struc_netnode_name a ≠ get_local_netnode_name b := by
  intro h
  unfold get_struc_netnode_name get_local_netnode_name at h
  have h2 := congrArg (fun s => s.data.take 12) h
  simp only [String.data_append] at h2
  rw [List.take_left' (by rfl), List.take_left' (by rfl)] at h2
  revert h2
  decide

end Aux

/-! ## The drift filter -/

/-- C1 (first-sighting ground truth).  Two `Struct` records `r1`, `r2` with the same
display name, each carrying a `"tag"` attribute, are given in that order to
`Filter::is_valid` on a fresh filter.  The first call returns `r1.id`; the second
returns `hash_struc` of the 16 tag characters memoised from `r1`, whatever tag
`r2` carries and whatever the uninitialised buffers held; so it returns `r2.id`
only if `r2.id` is already that hash.  When the tag attribute of `r1` is a
16-character value `T`, the second call returns `hash_struc T`. -/
theorem first_sighting_ground_truth (ida : Ida) (junk1 junk2 : Tag) (r1 r2 : HVersion)
    (hs1 : r1.type = .OBJECT_TYPE_STRUCT) (hs2 : r2.type = .OBJECT_TYPE_STRUCT)
    (hname : r1.username = r2.username)
    (ht1 : ∃ x, ("tag", x) ∈ r1.attributes) (ht2 : ∃ x, ("tag", x) ∈ r2.attributes) :
    (make_filter.is_valid ida junk1 r1).1 = r1.id
    ∧ ((make_filter.is_valid ida junk1 r1).2.is_valid ida junk2 r2).1
        = ida.hash_struc (make_string_ref (get_tag_from_version junk1 r1).1)
    ∧ (((make_filter.is_valid ida junk1 r1).2.is_valid ida junk2 r2).1 = r2.id →
        r2.id = ida.hash_struc (make_string_ref (get_tag_from_version junk1 r1).1))
    ∧ (∀ T : String, T.length = 16 → (∀ x, ("tag", x) ∈ r1.attributes → x = T) →
        ((make_filter.is_valid ida junk1 r1).2.is_valid ida junk2 r2).1 = ida.hash_struc T) := by
  have hf1 := (found_iff junk1 r1).2 ht1
  have hf2 := (found_iff junk2 r2).2 ht2
  have hstep1 := check_version_first ida.hash_struc junk1 make_filter.strucs_ r1 hf1 rfl
  have hfirst : (make_filter.is_valid ida junk1 r1).1 = r1.id := by
    rw [is_valid_struct _ _ _ _ hs1, check_struc_fst, hstep1]
  have hmemo : (make_filter.is_valid ida junk1 r1).2.strucs_ r2.username
      = some (make_string_ref (get_tag_from_version junk1 r1).1) := by
    rw [is_valid_struct _ _ _ _ hs1, check_struc_strucs, hstep1]
    simp [hname]
  have hsecond : ((make_filter.is_valid ida junk1 r1).2.is_valid ida junk2 r2).1
      = ida.hash_struc (make_string_ref (get_tag_from_version junk1 r1).1) := by
    rw [is_valid_struct _ _ _ _ hs2, check_struc_fst,
      check_version_seen ida.hash_struc junk2 _ r2 _ hf2 hmemo]
  refine ⟨hfirst, hsecond, ?_, ?_⟩
  · intro h
    rw [← h, hsecond]
  · intro T hT hall
    rw [hsecond, tag_of_version junk1 r1 T hT ht1 hall]

theorem first_sighting_ground_truth_witness :
    (make_filter.is_valid sampleIda Tag.zero recFirst).1 = 3
    ∧ ((make_filter.is_valid sampleIda Tag.zero recFirst).2.is_valid sampleIda Tag.zero
        recSecond).1 = 9 := by
  have h := first_sighting_ground_truth sampleIda Tag.zero Tag.zero recFirst recSecond rfl rfl rfl
    ⟨"A1B2C3D4E5F60708", by simp [recFirst]⟩ ⟨"0011223344556677", by simp [recSecond]⟩
  refine ⟨h.1, ?_⟩
  rw [h.2.2.2 "A1B2C3D4E5F60708" rfl (by simp [recFirst])]
  rfl

/-- C2 (member cascade).  For every filter state and every `StructMember` record `m`,
`Filter::is_valid` returns `hash_member(remap[m.parent_id], m.address)` when
`m.parent_id` is a key of `members_`, and `m.id` otherwise.  In particular, once a
drift 5 -> 9 of a struct has been recorded by a pass started on a fresh filter,
a member with parent 5 at address 0x10 yields `hash_member(9, 0x10)` and a member
with parent 7 yields its own id at any address. -/
theorem member_cascade (ida : Ida) (junk : Tag) (f : Filter) (m : HVersion)
    (hm : m.type = .OBJECT_TYPE_STRUCT_MEMBER) :
    (∀ v, f.members_ m.parent_id = some v →
        (f.is_valid ida junk m).1 = ida.hash_member v m.address)
    ∧ (f.members_ m.parent_id = none → (f.is_valid ida junk m).1 = m.id)
    ∧ (∀ (junk1 junk2 : Tag) (r1 r2 : HVersion),
        r1.type = .OBJECT_TYPE_STRUCT → r2.type = .OBJECT_TYPE_STRUCT →
        r1.username = r2.username →
        (∃ x, ("tag", x) ∈ r1.attributes) → (∃ x, ("tag", x) ∈ r2.attributes) →
        r2.id = 5 → ida.hash_struc (make_string_ref (get_tag_from_version junk1 r1).1) = 9 →
        (m.parent_id = 5 → m.address = 0x10 →
          (((make_filter.is_valid ida junk1 r1).2.is_valid ida junk2 r2).2.is_valid ida junk m).1
            = ida.hash_member 9 0x10)
        ∧ (m.parent_id = 7 →
          (((make_filter.is_valid ida junk1 r1).2.is_valid ida junk2 r2).2.is_valid ida junk m).1
            = m.id)) := by
  refine ⟨?_, ?_, ?_⟩
  · intro v hv
    rw [is_valid_member _ _ _ _ hm]
    simp [check_member, hv]
  · intro hv
    rw [is_valid_member _ _ _ _ hm]
    simp [check_member, hv]
  · intro junk1 junk2 r1 r2 hs1 hs2 hname ht1 ht2 hid hcand
    have hf1 := (found_iff junk1 r1).2 ht1
    have hf2 := (found_iff junk2 r2).2 ht2
    have hstep1 := check_version_first ida.hash_struc junk1 make_filter.strucs_ r1 hf1 rfl
    have hmem1 : (make_filter.is_valid ida junk1 r1).2.members_ = fun _ => none := by
      rw [is_valid_struct _ _ _ _ hs1, check_struc_members, hstep1]
      simp [make_filter]
    have hmemo : (make_filter.is_valid ida junk1 r1).2.strucs_ r2.username
        = some (make_string_ref (get_tag_from_version junk1 r1).1) := by
      rw [is_valid_struct _ _ _ _ hs1, check_struc_strucs, hstep1]
      simp [hname]
    have hmem2 : ((make_filter.is_valid ida junk1 r1).2.is_valid ida junk2 r2).2.members_
        = fun k => if k = 5 then some 9 else none := by
      rw [is_valid_struct _ _ _ _ hs2, check_struc_members,
        check_version_seen ida.hash_struc junk2 _ r2 _ hf2 hmemo, hmem1, hcand, hid]
      simp
    constructor
    · intro hp ha
      rw [is_valid_member _ _ _ _ hm]
      simp [check_member, hmem2, hp, ha]
    · intro hp
      rw [is_valid_member _ _ _ _ hm]
      simp [check_member, hmem2, hp]

theorem member_cascade_witness :
    (((make_filter.is_valid sampleIda Tag.zero recFirst).2.is_valid sampleIda Tag.zero
        recSecond).2.is_valid sampleIda Tag.zero recMember).1 = sampleIda.hash_member 9 0x10
    ∧ (make_filter.is_valid sampleIda Tag.zero recOther).1 = 78 :=
  ⟨((member_cascade sampleIda Tag.zero make_filter recMember rfl).2.2 Tag.zero Tag.zero
      recFirst recSecond rfl rfl rfl ⟨"A1B2C3D4E5F60708", by simp [recFirst]⟩
      ⟨"0011223344556677", by simp [recSecond]⟩ rfl
      (by rw [tag_of_version Tag.zero recFirst "A1B2C3D4E5F60708" rfl
            ⟨"A1B2C3D4E5F60708", by simp [recFirst]⟩ (by simp [recFirst])]; rfl)).1 rfl rfl,
    (member_cascade sampleIda Tag.zero make_filter recOther rfl).2.1 rfl⟩

/-! ## The tag store -/

/-- C3, as amended (rename preserves identity, Struct).  Let the identity lookup
`hash_struc` for `A` yield `(T, id)`.  If `A = B`, or no tag row exists under the
key of `B`, or the persistence primitive replaces the target of a rename, then
after `strucs::rename(A, B)` the lookup for `B` yields the same tag `T` and the
same `id`; this holds whether the rename is run after the lookup or directly on
the state the lookup started from. -/
theorem struct_rename_preserves_identity (replaces : Bool) (ida : Ida) (db : Db)
    (A B : String)
    (hB : A = B ∨ db.nodes (get_struc_netnode_name B) = none ∨ replaces = true) :
    ((hash_struc ida (strucs.rename replaces ida (hash_struc ida db A).2 (some A) B) B).1.tag
        = (hash_struc ida db A).1.tag
      ∧ (hash_struc ida (strucs.rename replaces ida (hash_struc ida db A).2 (some A) B) B).1.id
        = (hash_struc ida db A).1.id)
    ∧ ((hash_struc ida (strucs.rename replaces ida db (some A) B) B).1.tag
        = (hash_struc ida db A).1.tag
      ∧ (hash_struc ida (strucs.rename replaces ida db (some A) B) B).1.id
        = (hash_struc ida db A).1.id) := by
  -- the row of `A` after the first lookup
  have hrowA : (hash_struc ida db A).2.nodes (get_struc_netnode_name A)
      = some (hash_struc ida db A).1.tag :=
    hash_to_node_row get_struc_netnode_name ida.hash_struc db A
  have hagain : hash_struc ida (hash_struc ida db A).2 A = hash_struc ida db A := by
    have h0 : hash_struc ida (hash_struc ida db A).2 A = _ :=
      hash_to_node_existing _ _ _ A _ hrowA
    rw [h0]
    apply Prod.ext
    · have h1 : (hash_struc ida db A).1.node = get_struc_netnode_name A :=
        hash_to_node_node get_struc_netnode_name ida.hash_struc db A
      have h2 : (hash_struc ida db A).1.id
          = ida.hash_struc (make_string_ref (hash_struc ida db A).1.tag) :=
        hash_to_node_id get_struc_netnode_name ida.hash_struc db A
      cases hr : (hash_struc ida db A).1 with
      | mk t nd i =>
        rw [hr] at h1 h2
        simp only at h1 h2
        simp only [h1, h2]
    · rfl
  -- it is enough to look at the row of `B` after the rename
  have key : ∀ db0 : Db, hash_struc ida db0 A = hash_struc ida db A →
      (strucs.rename replaces ida db0 (some A) B).nodes (get_struc_netnode_name B)
        = some (hash_struc ida db A).1.tag := by
    intro db0 h0
    unfold strucs.rename
    dsimp only
    rw [h0]
    have hnode : (hash_struc ida db A).1.node = get_struc_netnode_name A :=
      hash_to_node_node _ _ _ _
    rw [hnode]
    by_cases hAB : A = B
    · subst hAB
      rw [rename_self]
      exact hrowA
    · have hne : get_struc_netnode_name B ≠ get_struc_netnode_name A := fun h =>
        hAB (struc_name_injective _ _ h).symm
      have hfree : (hash_struc ida db A).2.nodes (get_struc_netnode_name B) = none
          ∨ replaces = true := by
        rcases hB with h | h | h
        · exact absurd h hAB
        · left
          have hfr : (hash_struc ida db A).2.nodes (get_struc_netnode_name B)
              = db.nodes (get_struc_netnode_name B) :=
            hash_to_node_frame _ _ _ _ _ hne
          rw [hfr]
          exact h
        · exact Or.inr h
      rw [rename_moves replaces _ _ _ _ hrowA hne hfree]
      exact set_nodes_same _ _ _
  have fin : ∀ db1 : Db,
      db1.nodes (get_struc_netnode_name B) = some (hash_struc ida db A).1.tag →
      (hash_struc ida db1 B).1.tag = (hash_struc ida db A).1.tag
      ∧ (hash_struc ida db1 B).1.id = (hash_struc ida db A).1.id := by
    intro db1 h1
    have h2 : hash_struc ida db1 B = _ := hash_to_node_existing _ _ db1 B _ h1
    rw [h2]
    exact ⟨rfl, (hash_to_node_id get_struc_netnode_name ida.hash_struc db A).symm⟩
  exact ⟨fin _ (key _ hagain), fin _ (key _ rfl)⟩

theorem struct_rename_preserves_identity_witness :
    (hash_struc sampleIda (strucs.rename false sampleIda sampleDb (some "Packet") "Packet3")
        "Packet3").1.tag = sampleTag
    ∧ (hash_struc sampleIda (strucs.rename false sampleIda sampleDb (some "Packet") "Packet3")
        "Packet3").1.id = 9 :=
  (struct_rename_preserves_identity false sampleIda sampleDb "Packet" "Packet3"
    (Or.inr (Or.inl (by decide)))).2

/-- C3 as stated fails: with the documented `netnode::rename`, renaming `Packet`
onto `PacketV2`, which already holds another tag, leaves `PacketV2` with its own
tag and id. -/
theorem struct_rename_counterexample :
    (hash_struc sampleIda sampleDb "Packet").1.tag = sampleTag
    ∧ (hash_struc sampleIda sampleDb "Packet").1.id = 9
    ∧ (hash_struc sampleIda
        (strucs.rename false sampleIda (hash_struc sampleIda sampleDb "Packet").2
          (some "Packet") "PacketV2") "PacketV2").1.tag = otherTag
    ∧ (hash_struc sampleIda
        (strucs.rename false sampleIda (hash_struc sampleIda sampleDb "Packet").2
          (some "Packet") "PacketV2") "PacketV2").1.id = 4
    ∧ otherTag ≠ sampleTag := by
  decide

/-- C4, as amended (rename drops the old row).  For names `A ≠ B` such that no tag
row exists under the key of `B` (or the persistence primitive replaces the target
of a rename), after `strucs::rename(A, B)` the tag of `A` sits under the key of
`B` and no row exists under the key of `A`; the next lookup for `A` takes the
creation branch: it returns the tag obtained from the next eight bytes of the
generator, stores it as a new row under the key of `A`, and advances the
generator. -/
theorem struct_rename_drops_old_row (replaces : Bool) (ida : Ida) (db : Db) (A B : String)
    (hAB : A ≠ B)
    (hB : db.nodes (get_struc_netnode_name B) = none ∨ replaces = true) :
    (strucs.rename replaces ida db (some A) B).nodes (get_struc_netnode_name A) = none
    ∧ (strucs.rename replaces ida db (some A) B).nodes (get_struc_netnode_name B)
        = some (hash_struc ida db A).1.tag
    ∧ (hash_struc ida (strucs.rename replaces ida db (some A) B) A).1.tag
        = Tag.random (strucs.rename replaces ida db (some A) B).rng
    ∧ (hash_struc ida (strucs.rename replaces ida db (some A) B) A).1.id
        = ida.hash_struc
            (make_string_ref (Tag.random (strucs.rename replaces ida db (some A) B).rng))
    ∧ (hash_struc ida (strucs.rename replaces ida db (some A) B) A).2.nodes
          (get_struc_netnode_name A)
        = some (Tag.random (strucs.rename replaces ida db (some A) B).rng)
    ∧ (hash_struc ida (strucs.rename replaces ida db (some A) B) A).2.rng
        = ((strucs.rename replaces ida db (some A) B).rng.generate 8).2 := by
  have hrowA : (hash_struc ida db A).2.nodes (get_struc_netnode_name A)
      = some (hash_struc ida db A).1.tag :=
    hash_to_node_row get_struc_netnode_name ida.hash_struc db A
  have hne : get_struc_netnode_name B ≠ get_struc_netnode_name A := fun h =>
    hAB (struc_name_injective _ _ h).symm
  have hfree : (hash_struc ida db A).2.nodes (get_struc_netnode_name B) = none
      ∨ replaces = true := by
    rcases hB with h | h
    · left
      have hfr : (hash_struc ida db A).2.nodes (get_struc_netnode_name B)
          = db.nodes (get_struc_netnode_name B) :=
        hash_to_node_frame _ _ _ _ _ hne
      rw [hfr]
      exact h
    · exact Or.inr h
  have hnode : (hash_struc ida db A).1.node = get_struc_netnode_name A :=
    hash_to_node_node _ _ _ _
  have hren : strucs.rename replaces ida db (some A) B
      = ((hash_struc ida db A).2.kill (get_struc_netnode_name A)).set
          (get_struc_netnode_name B) (hash_struc ida db A).1.tag := by
    unfold strucs.rename
    dsimp only
    rw [hnode, rename_moves replaces _ _ _ _ hrowA hne hfree]
  have hgone : (strucs.rename replaces ida db (some A) B).nodes (get_struc_netnode_name A)
      = none := by
    rw [hren, set_nodes_other _ _ _ _ hne.symm, kill_nodes_same]
  have hlook : hash_struc ida (strucs.rename replaces ida db (some A) B) A = _ :=
    hash_to_node_created get_struc_netnode_name ida.hash_struc _ A hgone
  refine ⟨hgone, ?_, ?_, ?_, ?_, ?_⟩
  · rw [hren, set_nodes_same]
  · rw [hlook]
  · rw [hlook]
  · rw [hlook, set_nodes_same]
  · rw [hlook, set_rng]

theorem struct_rename_drops_old_row_witness :
    (strucs.rename false sampleIda sampleDb (some "Packet") "Packet3").nodes
        (get_struc_netnode_name "Packet") = none
    ∧ (strucs.rename false sampleIda sampleDb (some "Packet") "Packet3").nodes
        (get_struc_netnode_name "Packet3") = some sampleTag :=
  ⟨(struct_rename_drops_old_row false sampleIda sampleDb "Packet" "Packet3" (by decide)
      (Or.inl (by decide))).1,
   (struct_rename_drops_old_row false sampleIda sampleDb "Packet" "Packet3" (by decide)
      (Or.inl (by decide))).2.1⟩

/-- C4 as stated fails: with the documented `netnode::rename`, renaming `Packet`
onto the name `PacketV2` already in use keeps the row of `Packet`, and the next
lookup for `Packet` returns the old tag without drawing from the generator. -/
theorem struct_rename_old_row_counterexample :
    "Packet" ≠ "PacketV2"
    ∧ (strucs.rename false sampleIda sampleDb (some "Packet") "PacketV2").nodes
        (get_struc_netnode_name "Packet") = some sampleTag
    ∧ (hash_struc sampleIda (strucs.rename false sampleIda sampleDb (some "Packet") "PacketV2")
        "Packet").1.tag = sampleTag
    ∧ (hash_struc sampleIda (strucs.rename false sampleIda sampleDb (some "Packet") "PacketV2")
        "Packet").1.tag
        ≠ Tag.random (strucs.rename false sampleIda sampleDb (some "Packet") "PacketV2").rng := by
  decide

/-- C5 (import/export round trip).  Let `visit` on the name `A` emit the attribute
`tag = T`.  For every store state `dbB` and every version record named `B` whose
`"tag"` attribute is `T` (the record carries the attribute and no other value under
that key), `accept` returns the tag `T`, and the next identity lookup for `B`
returns the tag `T` with id `hash_struc T` for structs, `hash_local_type T` for
local types. -/
theorem import_export_round_trip (ida : Ida) (junk : Tag) (dbA dbB : Db) (A B T : String)
    (v : HVersion) (hname : v.username = B)
    (hmem : ("tag", T) ∈ v.attributes) (huniq : ∀ x, ("tag", x) ∈ v.attributes → x = T) :
    ((strucs.visit ida dbA A).1 = ("tag", T) →
      make_string_ref (strucs.accept junk dbB v).1 = T
      ∧ make_string_ref (hash_struc ida (strucs.accept junk dbB v).2 B).1.tag = T
      ∧ (hash_struc ida (strucs.accept junk dbB v).2 B).1.id = ida.hash_struc T)
    ∧ ((local_types.visit ida dbA A).1 = ("tag", T) →
      make_string_ref (local_types.accept junk dbB v).1 = T
      ∧ make_string_ref (hash_local ida (local_types.accept junk dbB v).2 B).1.tag = T
      ∧ (hash_local ida (local_types.accept junk dbB v).2 B).1.id = ida.hash_local_type T) := by
  have hfound := (found_iff junk v).2 ⟨T, hmem⟩
  have hlen : ∀ t : Tag, (("tag", make_string_ref t) : String × String) = ("tag", T) →
      T.length = 16 := by
    intro t ht
    have h2 : make_string_ref t = T := (Prod.mk.inj ht).2
    rw [← h2]
    exact t.size_eq
  constructor
  · intro hT
    have hT16 : T.length = 16 := hlen _ hT
    have htag := tag_of_version junk v T hT16 ⟨T, hmem⟩ huniq
    have hacc : strucs.accept junk dbB v
        = ((get_tag_from_version junk v).1,
           strucs.set_tag_with dbB v.username (get_tag_from_version junk v).1) := by
      simp [strucs.accept, hfound]
    have hrow : (strucs.accept junk dbB v).2.nodes (get_struc_netnode_name B)
        = some (get_tag_from_version junk v).1 := by
      rw [hacc, hname]
      exact set_nodes_same _ _ _
    have hlook : hash_struc ida (strucs.accept junk dbB v).2 B = _ :=
      hash_to_node_existing _ _ _ B _ hrow
    refine ⟨?_, ?_, ?_⟩
    · rw [hacc]; exact htag
    · rw [hlook]; exact htag
    · rw [hlook]
      simp only [htag]
  · intro hT
    have hT16 : T.length = 16 := hlen _ hT
    have htag := tag_of_version junk v T hT16 ⟨T, hmem⟩ huniq
    have hacc : local_types.accept junk dbB v
        = ((get_tag_from_version junk v).1,
           local_types.set_tag dbB v.username (get_tag_from_version junk v).1) := by
      simp [local_types.accept, hfound]
    have hrow : (local_types.accept junk dbB v).2.nodes (get_local_netnode_name B)
        = some (get_tag_from_version junk v).1 := by
      rw [hacc, hname]
      exact set_nodes_same _ _ _
    have hlook : hash_local ida (local_types.accept junk dbB v).2 B = _ :=
      hash_to_node_existing _ _ _ B _ hrow
    refine ⟨?_, ?_, ?_⟩
    · rw [hacc]; exact htag
    · rw [hlook]; exact htag
    · rw [hlook]
      simp only [htag]

theorem import_export_round_trip_witness :
    (strucs.visit sampleIda sampleDb "Packet").1 = ("tag", "A1B2C3D4E5F60708")
    ∧ make_string_ref (strucs.accept Tag.zero emptyDb recImport).1 = "A1B2C3D4E5F60708"
    ∧ make_string_ref (hash_struc sampleIda (strucs.accept Tag.zero emptyDb recImport).2
        "Copy").1.tag = "A1B2C3D4E5F60708"
    ∧ (hash_struc sampleIda (strucs.accept Tag.zero emptyDb recImport).2 "Copy").1.id
        = sampleIda.hash_struc "A1B2C3D4E5F60708" :=
  ⟨by decide,
   (import_export_round_trip sampleIda Tag.zero sampleDb emptyDb "Packet" "Copy"
      "A1B2C3D4E5F60708" recImport rfl (by simp [recImport]) (by simp [recImport])).1
      (by decide)⟩

/-- C6 (idempotence of identity lookup).  For every store state and name, for structs
and for local types, a second `hash_to_node` right after a first one returns the
same tag and the same id, and leaves the rows and the generator exactly as the
first call left them, whether or not the row existed before the first call. -/
theorem identity_lookup_idempotent (ida : Ida) (db : Db) (name : String) :
    ((hash_struc ida (hash_struc ida db name).2 name).1.tag = (hash_struc ida db name).1.tag
      ∧ (hash_struc ida (hash_struc ida db name).2 name).1.id = (hash_struc ida db name).1.id
      ∧ (hash_struc ida (hash_struc ida db name).2 name).2 = (hash_struc ida db name).2
      ∧ (hash_struc ida (hash_struc ida db name).2 name).2.rng = (hash_struc ida db name).2.rng)
    ∧ ((hash_local ida (hash_local ida db name).2 name).1.tag = (hash_local ida db name).1.tag
      ∧ (hash_local ida (hash_local ida db name).2 name).1.id = (hash_local ida db name).1.id
      ∧ (hash_local ida (hash_local ida db name).2 name).2 = (hash_local ida db name).2
      ∧ (hash_local ida (hash_local ida db name).2 name).2.rng
          = (hash_local ida db name).2.rng) := by
  have hs : hash_struc ida (hash_struc ida db name).2 name = hash_struc ida db name :=
    hash_to_node_again _ _ _ _
  have hl : hash_local ida (hash_local ida db name).2 name = hash_local ida db name :=
    hash_to_node_again _ _ _ _
  rw [hs, hl]
  exact ⟨⟨rfl, rfl, rfl, rfl⟩, ⟨rfl, rfl, rfl, rfl⟩⟩

/-- C7 (namespace isolation of store keys).  A struct key never equals a local-type
key, also for equal names; both key functions are injective; hence `set_tag`,
`rename` and `remove` of one kind leave every row of the other kind as it was,
and a struct and a local type of the same name hold independent rows. -/
theorem namespace_isolation (replaces : Bool) (ida : Ida) (db : Db) (a b : String)
    (oldname : Option String) (id : ea_t) (t t2 : Tag) :
    get_struc_netnode_name a ≠ get_local_netnode_name b
    ∧ Function.Injective get_struc_netnode_name
    ∧ Function.Injective get_local_netnode_name
    ∧ (strucs.set_tag_with db a t).nodes (get_local_netnode_name b)
        = db.nodes (get_local_netnode_name b)
    ∧ (strucs.set_tag ida db id t).nodes (get_local_netnode_name b)
        = db.nodes (get_local_netnode_name b)
    ∧ (strucs.rename replaces ida db oldname a).nodes (get_local_netnode_name b)
        = db.nodes (get_local_netnode_name b)
    ∧ (strucs.remove ida db id).2.nodes (get_local_netnode_name b)
        = db.nodes (get_local_netnode_name b)
    ∧ (local_types.set_tag db a t).nodes (get_struc_netnode_name b)
        = db.nodes (get_struc_netnode_name b)
    ∧ (local_types.rename replaces ida db oldname t a).nodes (get_struc_netnode_name b)
        = db.nodes (get_struc_netnode_name b)
    ∧ (local_types.remove ida db a).2.nodes (get_struc_netnode_name b)
        = db.nodes (get_struc_netnode_name b)
    ∧ (local_types.set_tag (strucs.set_tag_with db a t) a t2).nodes (get_struc_netnode_name a)
        = some t
    ∧ (local_types.set_tag (strucs.set_tag_with db a t) a t2).nodes (get_local_netnode_name a)
        = some t2 := by
  have hsl : ∀ x y : String, get_local_netnode_name y ≠ get_struc_netnode_name x :=
    fun x y h => struc_name_ne_local_name x y h.symm
  have hs : ∀ (d : Db) (x : String),
      (hash_struc ida d x).2.nodes (get_local_netnode_name b)
        = d.nodes (get_local_netnode_name b) :=
    fun d x => hash_to_node_frame _ _ d x _ (hsl x b)
  have hl : ∀ (d : Db) (x : String),
      (hash_local ida d x).2.nodes (get_struc_netnode_name b)
        = d.nodes (get_struc_netnode_name b) :=
    fun d x => hash_to_node_frame _ _ d x _ (struc_name_ne_local_name b x)
  have hsn : ∀ (d : Db) (x : String), (hash_struc ida d x).1.node = get_struc_netnode_name x :=
    fun d x => hash_to_node_node _ _ d x
  have hln : ∀ (d : Db) (x : String), (hash_local ida d x).1.node = get_local_netnode_name x :=
    fun d x => hash_to_node_node _ _ d x
  refine ⟨struc_name_ne_local_name a b, fun x y h => struc_name_injective x y h,
    fun x y h => local_name_injective x y h, ?_, ?_, ?_, ?_, ?_, ?_, ?_, ?_, ?_⟩
  · exact set_nodes_other _ _ _ _ (hsl a b)
  · exact set_nodes_other _ _ _ _ (hsl _ b)
  · cases oldname with
    | none => rfl
    | some o =>
      unfold strucs.rename
      dsimp only
      rw [hsn, rename_frame _ _ _ _ _ (hsl o b) (hsl a b), hs]
  · unfold strucs.remove hash_with
    dsimp only
    rw [hsn, kill_nodes_other _ _ _ (hsl _ b), hs]
  · exact set_nodes_other _ _ _ _ (struc_name_ne_local_name b a)
  · cases oldname with
    | none => rfl
    | some o =>
      unfold local_types.rename
      dsimp only
      rw [hln, rename_frame _ _ _ _ _ (struc_name_ne_local_name b o)
        (struc_name_ne_local_name b a)]
      unfold local_types.set_tag create_node_from
      rw [set_nodes_other _ _ _ _ (struc_name_ne_local_name b o), hl]
  · unfold local_types.remove
    dsimp only
    rw [hln, kill_nodes_other _ _ _ (struc_name_ne_local_name b a), hl]
  · unfold local_types.set_tag strucs.set_tag_with create_node_from
    rw [set_nodes_other _ _ _ _ (struc_name_ne_local_name a a), set_nodes_same]
  · exact set_nodes_same _ _ _

/-- C8 (remove returns the held tag and deletes the row).  When the row of the struct
named by IDA for `id`, respectively of the local type `name`, holds `T`, `remove`
returns `T`, no row is left under that key, every other row is as before, and the
generator is untouched. -/
theorem remove_existing (ida : Ida) (db : Db) (id : ea_t) (name : String) (T : Tag) :
    (db.nodes (get_struc_netnode_name (ida.get_struc_name id)) = some T →
      (strucs.remove ida db id).1 = T
      ∧ (strucs.remove ida db id).2.nodes (get_struc_netnode_name (ida.get_struc_name id)) = none
      ∧ (∀ k, k ≠ get_struc_netnode_name (ida.get_struc_name id) →
          (strucs.remove ida db id).2.nodes k = db.nodes k)
      ∧ (strucs.remove ida db id).2.rng = db.rng)
    ∧ (db.nodes (get_local_netnode_name name) = some T →
      (local_types.remove ida db name).1 = T
      ∧ (local_types.remove ida db name).2.nodes (get_local_netnode_name name) = none
      ∧ (∀ k, k ≠ get_local_netnode_name name →
          (local_types.remove ida db name).2.nodes k = db.nodes k)
      ∧ (local_types.remove ida db name).2.rng = db.rng) := by
  constructor
  · intro hrow
    have hlook : hash_struc ida db (ida.get_struc_name id) = _ :=
      hash_to_node_existing _ _ db _ T hrow
    unfold strucs.remove hash_with
    dsimp only
    rw [hlook]
    exact ⟨rfl, kill_nodes_same _ _, fun k hk => kill_nodes_other _ _ _ hk, rfl⟩
  · intro hrow
    have hlook : hash_local ida db name = _ := hash_to_node_existing _ _ db _ T hrow
    unfold local_types.remove
    dsimp only
    rw [hlook]
    exact ⟨rfl, kill_nodes_same _ _, fun k hk => kill_nodes_other _ _ _ hk, rfl⟩

theorem remove_existing_witness :
    (strucs.remove sampleIda sampleDb 1).1 = sampleTag
    ∧ (strucs.remove sampleIda sampleDb 1).2.nodes "$yaco_struc_Packet" = none
    ∧ (strucs.remove sampleIda sampleDb 1).2.nodes "$yaco_struc_PacketV2" = some otherTag := by
  have h := (remove_existing sampleIda sampleDb 1 "Packet" sampleTag).1 (by decide)
  refine ⟨h.1, h.2.1, ?_⟩
  rw [h.2.2.1 "$yaco_struc_PacketV2" (by decide)]
  decide

/-- C9, as amended (remove on a missing name).  When no row exists for the struct
named by IDA for `id`, respectively for the local type `name`, `remove` first
creates the row through the identity lookup and then kills it: it returns the tag
generated from the next eight bytes of the generator, which is never the all-NUL
tag; the rows after the call are the rows before it; the generator has advanced
by eight bytes. -/
theorem remove_missing (ida : Ida) (db : Db) (id : ea_t) (name : String) :
    (db.nodes (get_struc_netnode_name (ida.get_struc_name id)) = none →
      (strucs.remove ida db id).1 = Tag.random db.rng
      ∧ (strucs.remove ida db id).1 ≠ Tag.zero
      ∧ (strucs.remove ida db id).2.nodes = db.nodes
      ∧ (strucs.remove ida db id).2.rng = (db.rng.generate 8).2)
    ∧ (db.nodes (get_local_netnode_name name) = none →
      (local_types.remove ida db name).1 = Tag.random db.rng
      ∧ (local_types.remove ida db name).1 ≠ Tag.zero
      ∧ (local_types.remove ida db name).2.nodes = db.nodes
      ∧ (local_types.remove ida db name).2.rng = (db.rng.generate 8).2) := by
  have hrows : ∀ (key : String) (g : Rng) (t : Tag), db.nodes key = none →
      ((({ db with rng := g } : Db).set key t).kill key).nodes = db.nodes := by
    intro key g t hnone
    funext k
    by_cases hk : k = key
    · rw [hk, kill_nodes_same, hnone]
    · rw [kill_nodes_other _ _ _ hk, set_nodes_other _ _ _ _ hk]
  constructor
  · intro hrow
    have hlook : hash_struc ida db (ida.get_struc_name id) = _ :=
      hash_to_node_created _ _ db _ hrow
    unfold strucs.remove hash_with
    dsimp only
    rw [hlook]
    exact ⟨rfl, random_ne_zero _, hrows _ _ _ hrow, rfl⟩
  · intro hrow
    have hlook : hash_local ida db name = _ := hash_to_node_created _ _ db _ hrow
    unfold local_types.remove
    dsimp only
    rw [hlook]
    exact ⟨rfl, random_ne_zero _, hrows _ _ _ hrow, rfl⟩

theorem remove_missing_witness :
    (local_types.remove sampleIda emptyDb "Packet").1 = Tag.random sampleRng
    ∧ (local_types.remove sampleIda emptyDb "Packet").2.nodes = emptyDb.nodes :=
  ⟨((remove_missing sampleIda emptyDb 1 "Packet").2 rfl).1,
   ((remove_missing sampleIda emptyDb 1 "Packet").2 rfl).2.2.1⟩

/-- C9 as stated fails: on a store without rows, `local_types::remove("Packet")`
returns the freshly generated tag `A1B2C3D4E5F60718`, not an empty tag, and the
generator has moved on. -/
theorem remove_missing_counterexample :
    emptyDb.nodes (get_local_netnode_name "Packet") = none
    ∧ make_string_ref (local_types.remove sampleIda emptyDb "Packet").1 = "A1B2C3D4E5F60718"
    ∧ (local_types.remove sampleIda emptyDb "Packet").1 ≠ Tag.zero
    ∧ (local_types.remove sampleIda emptyDb "Packet").2.rng 0 ≠ emptyDb.rng 0 := by
  decide

/-- C10, as amended (LocalType rename).  `local_types::rename(old, tag, new)` writes
the tag passed by the caller at `old` before migrating.  If `new = old`, or no row
exists under the key of `new`, or the persistence primitive replaces the target
of a rename, the identity lookup for `new` afterwards returns the caller's tag and
`hash_local_type` of it; this is the identity the lookup for `old` returned before
the rename when the caller passes the tag stored at `old`. -/
theorem local_rename_writes_caller_tag (replaces : Bool) (ida : Ida) (db : Db)
    (old new : String) (tag : Tag)
    (hnew : new = old ∨ db.nodes (get_local_netnode_name new) = none ∨ replaces = true) :
    (hash_local ida (local_types.rename replaces ida db (some old) tag new) new).1.tag = tag
    ∧ (hash_local ida (local_types.rename replaces ida db (some old) tag new) new).1.id
        = ida.hash_local_type (make_string_ref tag)
    ∧ (tag = (hash_local ida db old).1.tag →
        (hash_local ida (local_types.rename replaces ida db (some old) tag new) new).1.tag
          = (hash_local ida db old).1.tag
        ∧ (hash_local ida (local_types.rename replaces ida db (some old) tag new) new).1.id
          = (hash_local ida db old).1.id) := by
  have hnode : (hash_local ida db old).1.node = get_local_netnode_name old :=
    hash_to_node_node _ _ _ _
  have hrow : (local_types.rename replaces ida db (some old) tag new).nodes
      (get_local_netnode_name new) = some tag := by
    unfold local_types.rename
    dsimp only
    rw [hnode]
    unfold local_types.set_tag create_node_from
    by_cases hno : new = old
    · subst hno
      rw [rename_self]
      exact set_nodes_same _ _ _
    · have hne : get_local_netnode_name new ≠ get_local_netnode_name old := fun h =>
        hno (local_name_injective _ _ h)
      have hfree : ((hash_local ida db old).2.set (get_local_netnode_name old) tag).nodes
          (get_local_netnode_name new) = none ∨ replaces = true := by
        rcases hnew with h | h | h
        · exact absurd h hno
        · left
          rw [set_nodes_other _ _ _ _ hne]
          have hfr : (hash_local ida db old).2.nodes (get_local_netnode_name new)
              = db.nodes (get_local_netnode_name new) :=
            hash_to_node_frame _ _ _ _ _ hne
          rw [hfr]
          exact h
        · exact Or.inr h
      rw [rename_moves replaces _ _ _ tag (set_nodes_same _ _ _) hne hfree]
      exact set_nodes_same _ _ _
  have hlook : hash_local ida (local_types.rename replaces ida db (some old) tag new) new = _ :=
    hash_to_node_existing _ _ _ new _ hrow
  have hid : (hash_local ida db old).1.id
      = ida.hash_local_type (make_string_ref (hash_local ida db old).1.tag) :=
    hash_to_node_id _ _ _ _
  rw [hlook]
  refine ⟨rfl, rfl, ?_⟩
  intro htag
  rw [hid, ← htag]
  exact ⟨rfl, rfl⟩

theorem local_rename_writes_caller_tag_witness :
    (hash_local sampleIda (local_types.rename false sampleIda sampleLocalDb (some "Packet")
        otherTag "Packet3") "Packet3").1.tag = otherTag
    ∧ (hash_local sampleIda (local_types.rename false sampleIda sampleLocalDb (some "Packet")
        otherTag "Packet3") "Packet3").1.id
        = sampleIda.hash_local_type (make_string_ref otherTag) :=
  ⟨(local_rename_writes_caller_tag false sampleIda sampleLocalDb "Packet" "Packet3" otherTag
      (Or.inr (Or.inl (by decide)))).1,
   (local_rename_writes_caller_tag false sampleIda sampleLocalDb "Packet" "Packet3" otherTag
      (Or.inr (Or.inl (by decide)))).2.1⟩

/-- C10 as stated fails: the local type `Packet` holds `sampleTag` (id 11); after
`local_types::rename("Packet", otherTag, "Packet3")` onto a free name, the lookup
for `Packet3` returns `otherTag` and id 6. -/
theorem local_rename_counterexample :
    (hash_local sampleIda sampleLocalDb "Packet").1.tag = sampleTag
    ∧ (hash_local sampleIda sampleLocalDb "Packet").1.id = 11
    ∧ (hash_local sampleIda sampleLocalDb "Packet").2.nodes (get_local_netnode_name "Packet3")
        = none
    ∧ (hash_local sampleIda
        (local_types.rename false sampleIda (hash_local sampleIda sampleLocalDb "Packet").2
          (some "Packet") otherTag "Packet3") "Packet3").1.tag = otherTag
    ∧ (hash_local sampleIda
        (local_types.rename false sampleIda (hash_local sampleIda sampleLocalDb "Packet").2
          (some "Packet") otherTag "Packet3") "Packet3").1.id = 6
    ∧ otherTag ≠ sampleTag := by
  decide

/-! ## Further facts about the drift filter -/

section FilterAux

/-- `check_struc` spelled out field by field. -/
theorem check_struc_eq (ida : Ida) (junk : Tag) (f : Filter) (v : HVersion) :
    check_struc ida junk f v
      = ((check_version ida.hash_struc junk f.strucs_ v).1,
         { strucs_ := (check_version ida.hash_struc junk f.strucs_ v).2,
           locals_ := f.locals_,
           members_ :=
             if v.id ≠ (check_version ida.hash_struc junk f.strucs_ v).1 then
               (fun k => if k = v.id then
                   (match f.members_ v.id with
                    | none => some (check_version ida.hash_struc junk f.strucs_ v).1
                    | some w => some w)
                 else f.members_ k)
             else f.members_ }) := by
  unfold check_struc check_struc_version
  dsimp only
  split <;> rfl

/-- A record with no attribute keyed `"tag"` is reported as not found. -/
theorem not_found_of_no_tag (junk : Tag) (v : HVersion)
    (h : ∀ x, ("tag", x) ∉ v.attributes) : (get_tag_from_version junk v).2 = false := by
  cases hb : (get_tag_from_version junk v).2 with
  | false => rfl
  | true =>
    obtain ⟨x, hx⟩ := (found_iff junk v).1 hb
    exact absurd hx (h x)

/-- Without tag the default-constructed buffer comes back untouched. -/
theorem walk_untouched (attrs : List (String × String)) (acc : Tag × Bool)
    (h : ∀ x, ("tag", x) ∉ attrs) : attrs.foldl tag_walker acc = acc := by
  induction attrs generalizing acc with
  | nil => rfl
  | cons kv rest ih =>
    rw [List.foldl_cons]
    have hk : kv.1 ≠ "tag" := by
      intro hk
      apply h kv.2
      rw [← hk]
      exact List.mem_cons_self _ _
    have hstep : tag_walker acc kv = acc := by simp [tag_walker, hk]
    rw [hstep]
    exact ih acc fun x hx => h x (List.mem_cons_of_mem _ hx)

/-- `check_version` never changes or removes an entry of the memo. -/
theorem check_version_mono (hasher : String → YaToolObjectId) (junk : Tag) (tags : Tags)
    (v : HVersion) (n t : String) (h : tags n = some t) :
    (check_version hasher junk tags v).2 n = some t := by
  cases hf : (get_tag_from_version junk v).2 with
  | false => rw [check_version_untagged _ _ _ _ hf]; exact h
  | true =>
    cases hn : tags v.username with
    | none =>
      rw [check_version_first _ _ _ _ hf hn]
      have hne : n ≠ v.username := by
        intro he
        rw [he, hn] at h
        exact Option.noConfusion h
      simp [hne, h]
    | some memo => rw [check_version_seen _ _ _ _ memo hf hn]; exact h

/-- The identifier returned by `check_version` is the record's own id or the hash of
a memo entry. -/
theorem check_version_result (hasher : String → YaToolObjectId) (junk : Tag) (tags : Tags)
    (v : HVersion) :
    (check_version hasher junk tags v).1 = v.id
    ∨ ∃ memo, tags v.username = some memo ∧ (check_version hasher junk tags v).1 = hasher memo := by
  cases hf : (get_tag_from_version junk v).2 with
  | false => left; rw [check_version_untagged _ _ _ _ hf]
  | true =>
    cases hn : tags v.username with
    | none => left; rw [check_version_first _ _ _ _ hf hn]
    | some memo => right; exact ⟨memo, rfl, by rw [check_version_seen _ _ _ _ memo hf hn]⟩

/-- `check_local_type` spelled out. -/
theorem check_local_type_eq (ida : Ida) (junk : Tag) (f : Filter) (v : HVersion) :
    check_local_type ida junk f v
      = ((check_version ida.hash_local_type junk f.locals_ v).1,
         { strucs_ := f.strucs_,
           locals_ := (check_version ida.hash_local_type junk f.locals_ v).2,
           members_ := f.members_ }) := rfl

/-- `check_member` never changes the filter. -/
theorem check_member_state (ida : Ida) (f : Filter) (v : HVersion) :
    (check_member ida f v).2 = f := by
  unfold check_member
  dsimp only
  split <;> rfl

/-- Records of a kind other than `Struct`, `StructMember`, `LocalType` pass through. -/
theorem is_valid_other (ida : Ida) (junk : Tag) (f : Filter) (v : HVersion)
    (h1 : v.type ≠ .OBJECT_TYPE_STRUCT) (h2 : v.type ≠ .OBJECT_TYPE_STRUCT_MEMBER)
    (h3 : v.type ≠ .OBJECT_TYPE_LOCAL_TYPE) : f.is_valid ida junk v = (v.id, f) := by
  unfold Filter.is_valid
  cases ht : v.type <;> simp_all

/-- Only `Struct` records can change the remap table. -/
theorem is_valid_members_frame (ida : Ida) (junk : Tag) (f : Filter) (v : HVersion)
    (h : v.type ≠ .OBJECT_TYPE_STRUCT) : (f.is_valid ida junk v).2.members_ = f.members_ := by
  by_cases h2 : v.type = .OBJECT_TYPE_STRUCT_MEMBER
  · rw [is_valid_member _ _ _ _ h2, check_member_state]
  · by_cases h3 : v.type = .OBJECT_TYPE_LOCAL_TYPE
    · rw [is_valid_local_type _ _ _ _ h3, check_local_type_eq]
    · rw [is_valid_other _ _ _ _ h h2 h3]

/-- Only `Struct` records can change the struct memo. -/
theorem is_valid_strucs_frame (ida : Ida) (junk : Tag) (f : Filter) (v : HVersion)
    (h : v.type ≠ .OBJECT_TYPE_STRUCT) : (f.is_valid ida junk v).2.strucs_ = f.strucs_ := by
  by_cases h2 : v.type = .OBJECT_TYPE_STRUCT_MEMBER
  · rw [is_valid_member _ _ _ _ h2, check_member_state]
  · by_cases h3 : v.type = .OBJECT_TYPE_LOCAL_TYPE
    · rw [is_valid_local_type _ _ _ _ h3, check_local_type_eq]
    · rw [is_valid_other _ _ _ _ h h2 h3]

/-- Only `LocalType` records can change the local-type memo. -/
theorem is_valid_locals_frame (ida : Ida) (junk : Tag) (f : Filter) (v : HVersion)
    (h : v.type ≠ .OBJECT_TYPE_LOCAL_TYPE) : (f.is_valid ida junk v).2.locals_ = f.locals_ := by
  by_cases h1 : v.type = .OBJECT_TYPE_STRUCT
  · rw [is_valid_struct _ _ _ _ h1, check_struc_eq]
  · by_cases h2 : v.type = .OBJECT_TYPE_STRUCT_MEMBER
    · rw [is_valid_member _ _ _ _ h2, check_member_state]
    · rw [is_valid_other _ _ _ _ h1 h2 h]

/-- No call of `Filter::is_valid` changes or removes an entry of the struct memo. -/
theorem is_valid_strucs_mono (ida : Ida) (junk : Tag) (f : Filter) (v : HVersion)
    (n t : String) (h : f.strucs_ n = some t) : (f.is_valid ida junk v).2.strucs_ n = some t := by
  by_cases h1 : v.type = .OBJECT_TYPE_STRUCT
  · rw [is_valid_struct _ _ _ _ h1, check_struc_eq]
    exact check_version_mono _ _ _ _ _ _ h
  · rw [is_valid_strucs_frame _ _ _ _ h1]
    exact h

/-- No call of `Filter::is_valid` changes or removes an entry of the local-type memo. -/
theorem is_valid_locals_mono (ida : Ida) (junk : Tag) (f : Filter) (v : HVersion)
    (n t : String) (h : f.locals_ n = some t) : (f.is_valid ida junk v).2.locals_ n = some t := by
  by_cases h3 : v.type = .OBJECT_TYPE_LOCAL_TYPE
  · rw [is_valid_local_type _ _ _ _ h3, check_local_type_eq]
    exact check_version_mono _ _ _ _ _ _ h
  · rw [is_valid_locals_frame _ _ _ _ h3]
    exact h

theorem pass_nil (ida : Ida) (f : Filter) : f.pass ida [] = f := rfl

theorem pass_cons (ida : Ida) (f : Filter) (jr : Tag × HVersion) (rest : List (Tag × HVersion)) :
    f.pass ida (jr :: rest) = (f.is_valid ida jr.1 jr.2).2.pass ida rest := rfl

end FilterAux

/-! ## Drift, pass-through and import without tag -/

/-- C11, as amended (struct drift is recorded).  Let `r` be a `Struct` record carrying
a `"tag"` attribute whose name is already in `memo_struct`, and
`candidate = hash_struc(memo_struct[name])`.  If `candidate ≠ r.id`, `is_valid`
returns `candidate`; afterwards `remap[r.id] = candidate` when the table held no
entry for `r.id`, while an entry already present for `r.id` is kept as it is
(`emplace`); the other entries are unchanged.  If `candidate = r.id`, it returns
`r.id` and the table is unchanged.  Both memos are unchanged in either case. -/
theorem struct_drift_recorded (ida : Ida) (junk : Tag) (f : Filter) (r : HVersion)
    (memo : String) (hs : r.type = .OBJECT_TYPE_STRUCT)
    (ht : ∃ x, ("tag", x) ∈ r.attributes) (hmemo : f.strucs_ r.username = some memo) :
    (ida.hash_struc memo ≠ r.id →
      (f.is_valid ida junk r).1 = ida.hash_struc memo
      ∧ (f.members_ r.id = none →
          (f.is_valid ida junk r).2.members_ r.id = some (ida.hash_struc memo))
      ∧ (∀ w, f.members_ r.id = some w → (f.is_valid ida junk r).2.members_ r.id = some w)
      ∧ (∀ k, k ≠ r.id → (f.is_valid ida junk r).2.members_ k = f.members_ k))
    ∧ (ida.hash_struc memo = r.id →
      (f.is_valid ida junk r).1 = r.id ∧ (f.is_valid ida junk r).2.members_ = f.members_)
    ∧ (f.is_valid ida junk r).2.strucs_ = f.strucs_
    ∧ (f.is_valid ida junk r).2.locals_ = f.locals_ := by
  have hf := (found_iff junk r).2 ht
  have hcv := check_version_seen ida.hash_struc junk f.strucs_ r memo hf hmemo
  rw [is_valid_struct _ _ _ _ hs, check_struc_eq, hcv]
  dsimp only
  refine ⟨?_, ?_, rfl, rfl⟩
  · intro hne
    have hne2 : r.id ≠ ida.hash_struc memo := fun h => hne h.symm
    rw [if_pos hne2]
    refine ⟨rfl, ?_, ?_, ?_⟩
    · intro hnone
      simp [hnone]
    · intro w hw
      simp [hw]
    · intro k hk
      simp [hk]
  · intro heq
    have heq2 : ¬ (r.id ≠ ida.hash_struc memo) := fun h => h heq.symm
    rw [if_neg heq2]
    exact ⟨heq, rfl⟩

theorem struct_drift_recorded_witness :
    ((make_filter.is_valid sampleIda Tag.zero recFirst).2.is_valid sampleIda Tag.zero
        recSecond).1 = 9
    ∧ ((make_filter.is_valid sampleIda Tag.zero recFirst).2.is_valid sampleIda Tag.zero
        recSecond).2.members_ 5 = some 9 := by
  have h := (struct_drift_recorded sampleIda Tag.zero
    (make_filter.is_valid sampleIda Tag.zero recFirst).2 recSecond "A1B2C3D4E5F60708" rfl
    ⟨"0011223344556677", by simp [recSecond]⟩ (by decide)).1 (by decide)
  exact ⟨h.1, h.2.1 (by decide)⟩

/-- C11 as stated fails on a state reached from a fresh filter: after `Header`,
`Packet` and a stale `Header` record with id 5, the table holds `5 -> 4`; the stale
`Packet` record with id 5 then returns its candidate 9, but `remap[5]` stays 4. -/
theorem struct_drift_counterexample :
    (make_filter.pass sampleIda
        [(Tag.zero, recHeader), (Tag.zero, recFirst), (Tag.zero, recHeaderStale)]).strucs_
        recSecond.username = some "A1B2C3D4E5F60708"
    ∧ sampleIda.hash_struc "A1B2C3D4E5F60708" = 9
    ∧ recSecond.id = 5
    ∧ ((make_filter.pass sampleIda
        [(Tag.zero, recHeader), (Tag.zero, recFirst), (Tag.zero, recHeaderStale)]).is_valid
        sampleIda Tag.zero recSecond).1 = 9
    ∧ ((make_filter.pass sampleIda
        [(Tag.zero, recHeader), (Tag.zero, recFirst), (Tag.zero, recHeaderStale)]).is_valid
        sampleIda Tag.zero recSecond).2.members_ 5 = some 4 := by
  decide

/-- C12, as amended (local-type drift).  Let `r` be a `LocalType` record carrying a
`"tag"` attribute whose name is already in `memo_local`.  `is_valid` returns
`candidate = hash_local_type(memo_local[name])` and leaves the whole filter state,
the remap table included, unchanged: no entry is recorded for `r.id`.  A later
member record whose `parent_id` is `r.id` therefore keeps its id when the table had
no entry for `r.id`, and is remapped through the entry that was already there
otherwise. -/
theorem local_type_drift (ida : Ida) (junk junk2 : Tag) (f : Filter) (r m : HVersion)
    (memo : String) (hl : r.type = .OBJECT_TYPE_LOCAL_TYPE)
    (ht : ∃ x, ("tag", x) ∈ r.attributes) (hmemo : f.locals_ r.username = some memo)
    (hm : m.type = .OBJECT_TYPE_STRUCT_MEMBER) (hp : m.parent_id = r.id) :
    (f.is_valid ida junk r).1 = ida.hash_local_type memo
    ∧ (f.is_valid ida junk r).2 = f
    ∧ (f.members_ r.id = none → ((f.is_valid ida junk r).2.is_valid ida junk2 m).1 = m.id)
    ∧ (∀ w, f.members_ r.id = some w →
        ((f.is_valid ida junk r).2.is_valid ida junk2 m).1 = ida.hash_member w m.address) := by
  have hf := (found_iff junk r).2 ht
  have hcv := check_version_seen ida.hash_local_type junk f.locals_ r memo hf hmemo
  have hstate : (f.is_valid ida junk r).2 = f := by
    rw [is_valid_local_type _ _ _ _ hl, check_local_type_eq, hcv]
  refine ⟨?_, hstate, ?_, ?_⟩
  · rw [is_valid_local_type _ _ _ _ hl, check_local_type_eq, hcv]
  · intro hnone
    rw [hstate, is_valid_member _ _ _ _ hm]
    simp [check_member, hp, hnone]
  · intro w hw
    rw [hstate, is_valid_member _ _ _ _ hm]
    simp [check_member, hp, hw]

theorem local_type_drift_witness :
    ((make_filter.is_valid sampleIda Tag.zero recLocalFirst).2.is_valid sampleIda Tag.zero
        recLocalSecond).1 = sampleIda.hash_local_type "A1B2C3D4E5F60708"
    ∧ ((make_filter.is_valid sampleIda Tag.zero recLocalFirst).2.is_valid sampleIda Tag.zero
        recLocalSecond).2 = (make_filter.is_valid sampleIda Tag.zero recLocalFirst).2 :=
  ⟨(local_type_drift sampleIda Tag.zero Tag.zero
      (make_filter.is_valid sampleIda Tag.zero recLocalFirst).2 recLocalSecond recMember
      "A1B2C3D4E5F60708" rfl ⟨"0011223344556677", by simp [recLocalSecond]⟩ (by decide)
      rfl rfl).1,
   (local_type_drift sampleIda Tag.zero Tag.zero
      (make_filter.is_valid sampleIda Tag.zero recLocalFirst).2 recLocalSecond recMember
      "A1B2C3D4E5F60708" rfl ⟨"0011223344556677", by simp [recLocalSecond]⟩ (by decide)
      rfl rfl).2.1⟩

/-- C12 as stated fails: on a fresh filter the local type `Packet` drifts 5 -> 11, but
no entry is recorded for 5, and the member record with parent 5 at address 0x10
keeps its id 77 instead of becoming `hash_member(11, 0x10)`. -/
theorem local_type_drift_counterexample :
    ((make_filter.is_valid sampleIda Tag.zero recLocalFirst).2.is_valid sampleIda Tag.zero
        recLocalSecond).1 = 11
    ∧ recLocalSecond.id = 5
    ∧ ((make_filter.is_valid sampleIda Tag.zero recLocalFirst).2.is_valid sampleIda Tag.zero
        recLocalSecond).2.members_ 5 = none
    ∧ recMember.parent_id = 5
    ∧ (((make_filter.is_valid sampleIda Tag.zero recLocalFirst).2.is_valid sampleIda Tag.zero
        recLocalSecond).2.is_valid sampleIda Tag.zero recMember).1 = 77
    ∧ sampleIda.hash_member 11 0x10 ≠ 77 := by
  decide

/-- C13 (records without a tag pass through).  For every filter state and every
`Struct` or `LocalType` record none of whose attributes is keyed `"tag"`,
`is_valid` returns the record's id and leaves `memo_struct`, `memo_local` and the
remap table unchanged. -/
theorem untagged_pass_through (ida : Ida) (junk : Tag) (f : Filter) (r : HVersion)
    (hk : r.type = .OBJECT_TYPE_STRUCT ∨ r.type = .OBJECT_TYPE_LOCAL_TYPE)
    (hno : ∀ x, ("tag", x) ∉ r.attributes) :
    (f.is_valid ida junk r).1 = r.id
    ∧ (f.is_valid ida junk r).2 = f
    ∧ (f.is_valid ida junk r).2.strucs_ r.username = f.strucs_ r.username
    ∧ (f.is_valid ida junk r).2.locals_ r.username = f.locals_ r.username := by
  have hf := not_found_of_no_tag junk r hno
  have hboth : f.is_valid ida junk r = (r.id, f) := by
    rcases hk with hs | hl
    · rw [is_valid_struct _ _ _ _ hs, check_struc_eq, check_version_untagged _ _ _ _ hf]
      simp
    · rw [is_valid_local_type _ _ _ _ hl, check_local_type_eq, check_version_untagged _ _ _ _ hf]
  rw [hboth]
  exact ⟨rfl, rfl, rfl, rfl⟩

theorem untagged_pass_through_witness :
    (sampleFilter.is_valid sampleIda Tag.zero recUntagged).1 = 21
    ∧ (sampleFilter.is_valid sampleIda Tag.zero recUntagged).2 = sampleFilter :=
  ⟨(untagged_pass_through sampleIda Tag.zero sampleFilter recUntagged (Or.inl rfl)
      (by simp [recUntagged])).1,
   (untagged_pass_through sampleIda Tag.zero sampleFilter recUntagged (Or.inl rfl)
      (by simp [recUntagged])).2.1⟩

/-- C14 (kind pass-through).  For every filter state and every record whose kind is
none of `Struct`, `StructMember`, `LocalType`, `is_valid` returns the record's id
and leaves the filter state unchanged, whatever the record carries. -/
theorem kind_pass_through (ida : Ida) (junk : Tag) (f : Filter) (v : HVersion)
    (h1 : v.type ≠ .OBJECT_TYPE_STRUCT) (h2 : v.type ≠ .OBJECT_TYPE_STRUCT_MEMBER)
    (h3 : v.type ≠ .OBJECT_TYPE_LOCAL_TYPE) :
    (f.is_valid ida junk v).1 = v.id ∧ (f.is_valid ida junk v).2 = f := by
  rw [is_valid_other _ _ _ _ h1 h2 h3]
  exact ⟨rfl, rfl⟩

theorem kind_pass_through_witness :
    (sampleFilter.is_valid sampleIda Tag.zero recFunction).1 = 31
    ∧ (sampleFilter.is_valid sampleIda Tag.zero recFunction).2 = sampleFilter :=
  kind_pass_through sampleIda Tag.zero sampleFilter recFunction (by decide) (by decide)
    (by decide)

/-- C15, as amended (import without a tag performs no write).  For every store state
and every version record none of whose attributes is keyed `"tag"`, `strucs::accept`
and `local_types::accept` leave the store unchanged; the tag they return is the
buffer `Tag tag;` of `get_tag_from_version` exactly as it was declared, no byte
having been copied into it, so its content is whatever that uninitialised buffer
held, and the walk reports that no tag was found. -/
theorem accept_without_tag (junk : Tag) (db : Db) (v : HVersion)
    (hno : ∀ x, ("tag", x) ∉ v.attributes) :
    strucs.accept junk db v = (junk, db)
    ∧ local_types.accept junk db v = (junk, db)
    ∧ get_tag_from_version junk v = (junk, false) := by
  have key : get_tag_from_version junk v = (junk, false) :=
    walk_untouched v.attributes (junk, false) hno
  refine ⟨?_, ?_, key⟩ <;> simp [strucs.accept, local_types.accept, key]

theorem accept_without_tag_witness :
    strucs.accept Tag.zero sampleDb recUntagged = (Tag.zero, sampleDb)
    ∧ local_types.accept Tag.zero sampleDb recUntagged = (Tag.zero, sampleDb) :=
  ⟨(accept_without_tag Tag.zero sampleDb recUntagged (by simp [recUntagged])).1,
   (accept_without_tag Tag.zero sampleDb recUntagged (by simp [recUntagged])).2.1⟩

/-- C15 as stated fails: the record `recUntagged` has the single attribute `size`,
and when the uninitialised buffer holds sixteen 0xFE bytes both `accept` functions
return those bytes, not the empty (all-NUL) tag. -/
theorem accept_without_tag_counterexample :
    recUntagged.attributes = [("size", "8")]
    ∧ (get_tag_from_version junkFE recUntagged).2 = false
    ∧ (strucs.accept junkFE sampleDb recUntagged).1 = junkFE
    ∧ (strucs.accept junkFE sampleDb recUntagged).1 ≠ Tag.zero
    ∧ (local_types.accept junkFE sampleDb recUntagged).1 = junkFE
    ∧ (local_types.accept junkFE sampleDb recUntagged).1 ≠ Tag.zero := by
  decide

/-! ## Local-type scope -/

/-- C16 (local-type scope exclusion).  For every ordinal that resolves and prints to a
name `n`, `local_types::identify` returns false exactly when `n` denotes an
enumeration, or `n` denotes a structure that exists and is not a ghost; it returns
true and the name `n` for a name that is neither, and for a ghost structure that
is not also an enumeration. -/
theorem identify_scope (ts : TypeSystem) (ord : Nat) (n : String)
    (hres : ts.get_numbered_type ord = true) (hprint : ts.print ord = some n) :
    ((local_types.identify ts ord).1 = false ↔
      (ts.get_enum n ≠ BADADDR
        ∨ (ts.get_struc_id n ≠ BADADDR ∧ ts.get_struc (ts.get_struc_id n) = some false)))
    ∧ (local_types.identify ts ord).2 = n
    ∧ (ts.get_enum n = BADADDR →
        (ts.get_struc_id n = BADADDR ∨ ts.get_struc (ts.get_struc_id n) = none) →
        (local_types.identify ts ord).1 = true)
    ∧ (ts.get_enum n = BADADDR → ts.get_struc_id n ≠ BADADDR →
        ts.get_struc (ts.get_struc_id n) = some true →
        (local_types.identify ts ord).1 = true) := by
  unfold local_types.identify
  simp only [hres, hprint, Bool.not_true, Bool.false_eq_true, ↓reduceIte]
  by_cases he : ts.get_enum n = BADADDR
  · by_cases hsid : ts.get_struc_id n = BADADDR
    · simp [he, hsid]
    · cases hst : ts.get_struc (ts.get_struc_id n) with
      | none => simp [he, hsid, hst]
      | some ghost => cases ghost <;> simp [he, hsid, hst]
  · simp [he]

theorem identify_scope_witness :
    (local_types.identify sampleTypes 1).1 = true
    ∧ (local_types.identify sampleTypes 2).1 = false
    ∧ (local_types.identify sampleTypes 3).1 = false
    ∧ (local_types.identify sampleTypes 4).1 = true := by
  refine ⟨(identify_scope sampleTypes 1 "Plain" rfl rfl).2.2.1 (by decide) (Or.inl (by decide)),
    ((identify_scope sampleTypes 2 "Color" rfl rfl).1).2 (Or.inl (by decide)),
    ((identify_scope sampleTypes 3 "Packet" rfl rfl).1).2 (Or.inr ⟨by decide, by decide⟩),
    (identify_scope sampleTypes 4 "Fwd" rfl rfl).2.2.2 (by decide) (by decide) (by decide)⟩

/-- C17 (NotResolvable sentinel).  For every store state and ordinal: when
`local_types::identify` is false (the ordinal does not resolve, printing fails, the
name is an enumeration or a materialised structure), `local_types::hash(ord)`
returns the zero identifier and leaves the store unchanged; when it is true, the
result is the id of the identity lookup `hash_local` for the printed name, with
the state that lookup leaves. -/
theorem hash_ord_sentinel (ts : TypeSystem) (ida : Ida) (db : Db) (ord : Nat) :
    ((local_types.identify ts ord).1 = false → local_types.hash_ord ts ida db ord = (0, db))
    ∧ ((local_types.identify ts ord).1 = true →
        local_types.hash_ord ts ida db ord
          = ((hash_local ida db (local_types.identify ts ord).2).1.id,
             (hash_local ida db (local_types.identify ts ord).2).2))
    ∧ (ts.get_numbered_type ord = false → local_types.hash_ord ts ida db ord = (0, db))
    ∧ (ts.print ord = none → local_types.hash_ord ts ida db ord = (0, db))
    ∧ (∀ n, ts.get_numbered_type ord = true → ts.print ord = some n →
        (ts.get_enum n ≠ BADADDR → local_types.hash_ord ts ida db ord = (0, db))
        ∧ (ts.get_struc_id n ≠ BADADDR → ts.get_struc (ts.get_struc_id n) = some false →
            local_types.hash_ord ts ida db ord = (0, db))
        ∧ ((local_types.identify ts ord).1 = true →
            local_types.hash_ord ts ida db ord
              = ((hash_local ida db n).1.id, (hash_local ida db n).2))) := by
  have hfalse : (local_types.identify ts ord).1 = false →
      local_types.hash_ord ts ida db ord = (0, db) := by
    intro h
    simp [local_types.hash_ord, h]
  have htrue : (local_types.identify ts ord).1 = true →
      local_types.hash_ord ts ida db ord
        = ((hash_local ida db (local_types.identify ts ord).2).1.id,
           (hash_local ida db (local_types.identify ts ord).2).2) := by
    intro h
    simp [local_types.hash_ord, local_types.hash, h]
  refine ⟨hfalse, htrue, ?_, ?_, ?_⟩
  · intro h
    apply hfalse
    simp [local_types.identify, h]
  · intro h
    apply hfalse
    unfold local_types.identify
    rw [h]
    split <;> rfl
  · intro n hres hprint
    have hsc := identify_scope ts ord n hres hprint
    refine ⟨fun he => hfalse (hsc.1.2 (Or.inl he)),
      fun hsid hst => hfalse (hsc.1.2 (Or.inr ⟨hsid, hst⟩)), ?_⟩
    intro h
    rw [htrue h, hsc.2.1]

theorem hash_ord_sentinel_witness :
    local_types.hash_ord sampleTypes sampleIda sampleLocalDb 3 = (0, sampleLocalDb)
    ∧ local_types.hash_ord sampleTypes sampleIda sampleLocalDb 9 = (0, sampleLocalDb)
    ∧ (local_types.hash_ord sampleTypes sampleIda sampleLocalDb 1).1
        = (hash_local sampleIda sampleLocalDb "Plain").1.id := by
  have h3 := (hash_ord_sentinel sampleTypes sampleIda sampleLocalDb 3).1 (by decide)
  have h9 := (hash_ord_sentinel sampleTypes sampleIda sampleLocalDb 9).2.2.1 (by decide)
  have h1 := ((hash_ord_sentinel sampleTypes sampleIda sampleLocalDb 1).2.2.2.2 "Plain"
    (by decide) (by decide)).2.2 (by decide)
  exact ⟨h3, h9, by rw [h1]⟩

/-! ## Invariants of a pass -/

section PassAux

/-- A pass never changes or removes an entry of the struct memo. -/
theorem pass_strucs_mono (ida : Ida) (records : List (Tag × HVersion)) (f : Filter)
    (n t : String) (h : f.strucs_ n = some t) : (f.pass ida records).strucs_ n = some t := by
  induction records generalizing f with
  | nil => exact h
  | cons jr rest ih =>
    rw [pass_cons]
    exact ih _ (is_valid_strucs_mono ida jr.1 f jr.2 n t h)

/-- A pass never changes or removes an entry of the local-type memo. -/
theorem pass_locals_mono (ida : Ida) (records : List (Tag × HVersion)) (f : Filter)
    (n t : String) (h : f.locals_ n = some t) : (f.pass ida records).locals_ n = some t := by
  induction records generalizing f with
  | nil => exact h
  | cons jr rest ih =>
    rw [pass_cons]
    exact ih _ (is_valid_locals_mono ida jr.1 f jr.2 n t h)

theorem remapSound_fresh (ida : Ida) : RemapSound ida make_filter := by
  intro k v h
  exact Option.noConfusion h

/-- One call of `Filter::is_valid` keeps the remap table sound. -/
theorem remapSound_step (ida : Ida) (junk : Tag) (f : Filter) (r : HVersion)
    (hinv : RemapSound ida f) : RemapSound ida (f.is_valid ida junk r).2 := by
  intro k v hkv
  have keep : ∀ k v, f.members_ k = some v →
      k ≠ v ∧ ∃ name t, (f.is_valid ida junk r).2.strucs_ name = some t
        ∧ v = ida.hash_struc t := by
    intro k v h
    obtain ⟨hne, name, t, hmemo, hv⟩ := hinv k v h
    exact ⟨hne, name, t, is_valid_strucs_mono ida junk f r name t hmemo, hv⟩
  by_cases hs : r.type = .OBJECT_TYPE_STRUCT
  · have hmem := check_struc_members ida junk f r
    rw [← is_valid_struct ida junk f r hs] at hmem
    rw [hmem] at hkv
    by_cases hd : r.id ≠ (check_version ida.hash_struc junk f.strucs_ r).1
    · rw [if_pos hd] at hkv
      by_cases hk : k = r.id
      · rw [if_pos hk] at hkv
        cases hold : f.members_ r.id with
        | none =>
          rw [hold] at hkv
          have hv : (check_version ida.hash_struc junk f.strucs_ r).1 = v :=
            Option.some.inj hkv
          refine ⟨by rw [hk, ← hv]; exact hd, ?_⟩
          rcases check_version_result ida.hash_struc junk f.strucs_ r with hsame | hmemo
          · exact absurd hsame.symm hd
          · obtain ⟨memo, hm, hres⟩ := hmemo
            exact ⟨r.username, memo, is_valid_strucs_mono ida junk f r _ _ hm,
              by rw [← hv, hres]⟩
        | some w =>
          rw [hold] at hkv
          have hv : w = v := Option.some.inj hkv
          rw [hk]
          exact keep r.id v (by rw [hold, hv])
      · rw [if_neg hk] at hkv
        exact keep k v hkv
    · rw [if_neg hd] at hkv
      exact keep k v hkv
  · rw [is_valid_members_frame ida junk f r hs] at hkv
    exact keep k v hkv

/-- A pass keeps the remap table sound. -/
theorem remapSound_pass (ida : Ida) (records : List (Tag × HVersion)) (f : Filter)
    (hinv : RemapSound ida f) : RemapSound ida (f.pass ida records) := by
  induction records generalizing f with
  | nil => exact hinv
  | cons jr rest ih =>
    rw [pass_cons]
    exact ih _ (remapSound_step ida jr.1 f jr.2 hinv)

end PassAux

/-- C18 (memo is fixed at first sighting).  Once `memo_struct`, respectively
`memo_local`, has an entry for a name, no later call of a pass overwrites or
removes it, whatever the later records carry; hence a later tagged record of that
name is checked against that entry.  In particular the entry written at the first
tagged sighting `r1` of a name is the tag of `r1`, and after any further records a
tagged record of that name is answered with the hash of the tag of `r1`. -/
theorem memo_fixed_at_first_sighting (ida : Ida) (f : Filter)
    (records : List (Tag × HVersion)) (n : String) :
    (∀ t, f.strucs_ n = some t → (f.pass ida records).strucs_ n = some t)
    ∧ (∀ t, f.locals_ n = some t → (f.pass ida records).locals_ n = some t)
    ∧ (∀ t junk r, f.strucs_ n = some t → r.type = .OBJECT_TYPE_STRUCT → r.username = n →
        (∃ x, ("tag", x) ∈ r.attributes) →
        ((f.pass ida records).is_valid ida junk r).1 = ida.hash_struc t)
    ∧ (∀ t junk r, f.locals_ n = some t → r.type = .OBJECT_TYPE_LOCAL_TYPE → r.username = n →
        (∃ x, ("tag", x) ∈ r.attributes) →
        ((f.pass ida records).is_valid ida junk r).1 = ida.hash_local_type t)
    ∧ (∀ junk1 r1 junk r, f.strucs_ n = none →
        r1.type = .OBJECT_TYPE_STRUCT → r1.username = n → (∃ x, ("tag", x) ∈ r1.attributes) →
        r.type = .OBJECT_TYPE_STRUCT → r.username = n → (∃ x, ("tag", x) ∈ r.attributes) →
        ((f.is_valid ida junk1 r1).2.pass ida records).strucs_ n
          = some (make_string_ref (get_tag_from_version junk1 r1).1)
        ∧ (((f.is_valid ida junk1 r1).2.pass ida records).is_valid ida junk r).1
          = ida.hash_struc (make_string_ref (get_tag_from_version junk1 r1).1))
    ∧ (∀ junk1 r1 junk r, f.locals_ n = none →
        r1.type = .OBJECT_TYPE_LOCAL_TYPE → r1.username = n →
        (∃ x, ("tag", x) ∈ r1.attributes) →
        r.type = .OBJECT_TYPE_LOCAL_TYPE → r.username = n → (∃ x, ("tag", x) ∈ r.attributes) →
        ((f.is_valid ida junk1 r1).2.pass ida records).locals_ n
          = some (make_string_ref (get_tag_from_version junk1 r1).1)
        ∧ (((f.is_valid ida junk1 r1).2.pass ida records).is_valid ida junk r).1
          = ida.hash_local_type (make_string_ref (get_tag_from_version junk1 r1).1)) := by
  have ans_s : ∀ (g : Filter) (m : String) (junk : Tag) (r : HVersion),
      g.strucs_ n = some m → r.type = .OBJECT_TYPE_STRUCT → r.username = n →
      (∃ x, ("tag", x) ∈ r.attributes) → (g.is_valid ida junk r).1 = ida.hash_struc m := by
    intro g m junk r hg hs hn ht
    rw [is_valid_struct _ _ _ _ hs, check_struc_fst,
      check_version_seen ida.hash_struc junk _ r m ((found_iff junk r).2 ht)
        (by rw [hn]; exact hg)]
  have ans_l : ∀ (g : Filter) (m : String) (junk : Tag) (r : HVersion),
      g.locals_ n = some m → r.type = .OBJECT_TYPE_LOCAL_TYPE → r.username = n →
      (∃ x, ("tag", x) ∈ r.attributes) →
      (g.is_valid ida junk r).1 = ida.hash_local_type m := by
    intro g m junk r hg hl hn ht
    rw [is_valid_local_type _ _ _ _ hl, check_local_type_eq,
      check_version_seen ida.hash_local_type junk _ r m ((found_iff junk r).2 ht)
        (by rw [hn]; exact hg)]
  refine ⟨fun t h => pass_strucs_mono ida records f n t h,
    fun t h => pass_locals_mono ida records f n t h, ?_, ?_, ?_, ?_⟩
  · intro t junk r h hs hn ht
    exact ans_s _ _ junk r (pass_strucs_mono ida records f n t h) hs hn ht
  · intro t junk r h hl hn ht
    exact ans_l _ _ junk r (pass_locals_mono ida records f n t h) hl hn ht
  · intro junk1 r1 junk r h hs1 hn1 ht1 hs hn ht
    have h1 : (f.is_valid ida junk1 r1).2.strucs_ n
        = some (make_string_ref (get_tag_from_version junk1 r1).1) := by
      rw [is_valid_struct _ _ _ _ hs1, check_struc_strucs,
        check_version_first ida.hash_struc junk1 _ r1 ((found_iff junk1 r1).2 ht1)
          (by rw [hn1]; exact h)]
      simp [hn1]
    have hp := pass_strucs_mono ida records _ n _ h1
    exact ⟨hp, ans_s _ _ junk r hp hs hn ht⟩
  · intro junk1 r1 junk r h hl1 hn1 ht1 hl hn ht
    have h1 : (f.is_valid ida junk1 r1).2.locals_ n
        = some (make_string_ref (get_tag_from_version junk1 r1).1) := by
      rw [is_valid_local_type _ _ _ _ hl1, check_local_type_eq,
        check_version_first ida.hash_local_type junk1 _ r1 ((found_iff junk1 r1).2 ht1)
          (by rw [hn1]; exact h)]
      simp [hn1]
    have hp := pass_locals_mono ida records _ n _ h1
    exact ⟨hp, ans_l _ _ junk r hp hl hn ht⟩

theorem memo_fixed_at_first_sighting_witness :
    (sampleFilter.pass sampleIda
        [(Tag.zero, recSecond), (Tag.zero, recHeader), (Tag.zero, recLocalSecond)]).strucs_
        "Packet" = some "A1B2C3D4E5F60708"
    ∧ ((sampleFilter.pass sampleIda
        [(Tag.zero, recSecond), (Tag.zero, recHeader), (Tag.zero, recLocalSecond)]).is_valid
        sampleIda Tag.zero recSecond).1 = sampleIda.hash_struc "A1B2C3D4E5F60708" :=
  ⟨(memo_fixed_at_first_sighting sampleIda sampleFilter
      [(Tag.zero, recSecond), (Tag.zero, recHeader), (Tag.zero, recLocalSecond)]
      "Packet").1 "A1B2C3D4E5F60708" (by decide),
   (memo_fixed_at_first_sighting sampleIda sampleFilter
      [(Tag.zero, recSecond), (Tag.zero, recHeader), (Tag.zero, recLocalSecond)]
      "Packet").2.2.1 "A1B2C3D4E5F60708" Tag.zero recSecond (by decide) rfl rfl
      ⟨"0011223344556677", by simp [recSecond]⟩⟩

/-- C19 (independent memo namespaces in the filter).  `is_valid` on a `Struct` record
never changes `memo_local`, and on a `LocalType` record never changes
`memo_struct`.  So on a fresh filter, after a tagged `Struct` record named `N`, a
tagged `LocalType` record named `N` is still a first sighting and returns its own
id, and likewise with the kinds swapped. -/
theorem memo_namespaces_independent (ida : Ida) (junk junk2 : Tag) (f : Filter)
    (s l : HVersion) (hs : s.type = .OBJECT_TYPE_STRUCT) (hl : l.type = .OBJECT_TYPE_LOCAL_TYPE) :
    (f.is_valid ida junk s).2.locals_ = f.locals_
    ∧ (f.is_valid ida junk l).2.strucs_ = f.strucs_
    ∧ (s.username = l.username → (∃ x, ("tag", x) ∈ s.attributes) →
        (∃ x, ("tag", x) ∈ l.attributes) →
        ((make_filter.is_valid ida junk s).2.is_valid ida junk2 l).1 = l.id
        ∧ ((make_filter.is_valid ida junk l).2.is_valid ida junk2 s).1 = s.id) := by
  have hsl : s.type ≠ .OBJECT_TYPE_LOCAL_TYPE := by rw [hs]; decide
  have hls : l.type ≠ .OBJECT_TYPE_STRUCT := by rw [hl]; decide
  refine ⟨is_valid_locals_frame ida junk f s hsl, is_valid_strucs_frame ida junk f l hls, ?_⟩
  intro _ hts htl
  have hfs := (found_iff junk2 s).2 hts
  have hfl := (found_iff junk2 l).2 htl
  constructor
  · have hloc : (make_filter.is_valid ida junk s).2.locals_ l.username = none := by
      rw [is_valid_locals_frame ida junk make_filter s hsl]
      rfl
    rw [is_valid_local_type _ _ _ _ hl, check_local_type_eq,
      check_version_first ida.hash_local_type junk2 _ l hfl hloc]
  · have hstr : (make_filter.is_valid ida junk l).2.strucs_ s.username = none := by
      rw [is_valid_strucs_frame ida junk make_filter l hls]
      rfl
    rw [is_valid_struct _ _ _ _ hs, check_struc_fst,
      check_version_first ida.hash_struc junk2 _ s hfs hstr]

theorem memo_namespaces_independent_witness :
    ((make_filter.is_valid sampleIda Tag.zero recFirst).2.is_valid sampleIda Tag.zero
        recLocalSecond).1 = 5
    ∧ ((make_filter.is_valid sampleIda Tag.zero recLocalSecond).2.is_valid sampleIda Tag.zero
        recFirst).1 = 3 :=
  (memo_namespaces_independent sampleIda Tag.zero Tag.zero make_filter recFirst recLocalSecond
    rfl rfl).2.2 rfl ⟨"A1B2C3D4E5F60708", by simp [recFirst]⟩
    ⟨"0011223344556677", by simp [recLocalSecond]⟩

/-- C20 (remap-table invariant).  In every filter state reached from a fresh filter
by any sequence of `is_valid` calls, every entry `(k, v)` of `members_` has
`k ≠ v` and `v = hash_struc(t)` for some value `t` of `memo_struct`; and `is_valid`
on a record of any kind other than `Struct` (`StructMember` included) leaves the
remap table exactly as it was. -/
theorem remap_invariant (ida : Ida) (records : List (Tag × HVersion)) (f : Filter)
    (junk : Tag) (r : HVersion) :
    (∀ k v, (make_filter.pass ida records).members_ k = some v →
      k ≠ v ∧ ∃ name t, (make_filter.pass ida records).strucs_ name = some t
        ∧ v = ida.hash_struc t)
    ∧ (r.type ≠ .OBJECT_TYPE_STRUCT → (f.is_valid ida junk r).2.members_ = f.members_)
    ∧ (r.type = .OBJECT_TYPE_STRUCT_MEMBER → (f.is_valid ida junk r).2.members_ = f.members_) :=
  ⟨remapSound_pass ida records make_filter (remapSound_fresh ida),
   is_valid_members_frame ida junk f r,
   fun h => is_valid_members_frame ida junk f r (by rw [h]; decide)⟩

theorem remap_invariant_witness :
    (5 : YaToolObjectId) ≠ 9
    ∧ (∃ name t, (make_filter.pass sampleIda
          [(Tag.zero, recFirst), (Tag.zero, recSecond)]).strucs_ name = some t
        ∧ 9 = sampleIda.hash_struc t)
    ∧ (sampleFilter.is_valid sampleIda Tag.zero recMember).2.members_ = sampleFilter.members_ :=
  ⟨((remap_invariant sampleIda [(Tag.zero, recFirst), (Tag.zero, recSecond)] sampleFilter
      Tag.zero recMember).1 5 9 (by decide)).1,
   ((remap_invariant sampleIda [(Tag.zero, recFirst), (Tag.zero, recSecond)] sampleFilter
      Tag.zero recMember).1 5 9 (by decide)).2,
   (remap_invariant sampleIda [(Tag.zero, recFirst), (Tag.zero, recSecond)] sampleFilter
      Tag.zero recMember).2.2 rfl⟩

end YaCo
